import Mathlib

/-!
Verification of the CHIP-8 interpreter core in `src/emulator.rs`
(repository `cjwilsontech/chip-8-rust`).

The Rust `Chip8` struct and its methods `new`, `load` and `cycle` are
shallowly embedded below.  Machine integers become `Nat` with explicit
`% 2^w` at the points where the Rust code performs wrapping arithmetic
(`u8::wrapping_add`, `u8::overflowing_sub`, `as u8` casts, `<<` on `u8`);
array indexing that can panic in Rust (`expect`, `[]` on an out-of-range
index, `panic!`, `todo!`) is modelled with `Except Fault`, so `cycle`
returns `Except Fault Chip8`.  Rust bit masks such as `opcode & 0xF000`
are transcribed as the equivalent quotient/remainder arithmetic, with a
comment naming the original mask at each dispatch arm.  The `redraw`
callback only reads the display and is dropped from the model.  The
random byte drawn by opcode `0xCXNN` is passed in as an explicit oracle
argument `rnd` (the Rust code calls `rng.gen::<u8>()`).
-/

/-- Fatal conditions of the interpreter: each constructor corresponds to a
`panic!`, `expect` or `todo!` in `src/emulator.rs`. -/
inductive Fault where
  /-- `checked_sub` returning `None` or `stack.get` failing on `0x00EE`. -/
  | stackUnderflow
  /-- `panic!("Stack overflow.")` on `0x2NNN` with a full stack. -/
  | stackOverflow
  /-- `get_opcode`: `memory.get(pc)` or `memory.get(pc + 1)` out of bounds. -/
  | pcOutOfBounds
  /-- a `memory[...]` access out of the 4096-byte bound. -/
  | memoryOutOfBounds
  /-- a `display[...]` access out of the 64*32 bound (sprite draw). -/
  | displayOutOfBounds
  /-- `keyboard.get(key_index)` out of bounds on `0xEX9E` / `0xEXA1`. -/
  | keyboardOutOfBounds
  /-- `panic!("Vx to be within the range 0-15.")` on `0xFX29`. -/
  | digitOutOfRange
  /-- `todo!("FX0A")`: the store-pressed-key instruction is unimplemented. -/
  | notImplementedFX0A
  /-- `panic!("Unknown opcode: ...")`. -/
  | unknownOpcode (op : Nat)
  deriving Repr, DecidableEq

/-- `DISPLAY_WIDTH` in `src/emulator.rs`. -/
def DISPLAY_WIDTH : Nat := 64
/-- `DISPLAY_HEIGHT` in `src/emulator.rs`. -/
def DISPLAY_HEIGHT : Nat := 32
/-- `PROG_START` in `src/emulator.rs`. -/
def PROG_START : Nat := 0x200
/-- `PROG_END` in `src/emulator.rs`. -/
def PROG_END : Nat := 0xEA0
/-- `SPRITE_START` in `src/emulator.rs`. -/
def SPRITE_START : Nat := 0
/-- `SPRITE_BYTE_WIDTH` in `src/emulator.rs`. -/
def SPRITE_BYTE_WIDTH : Nat := 5
/-- `STACK_SIZE` in `src/emulator.rs`. -/
def STACK_SIZE : Nat := 16

/-- The `Chip8` struct of `src/emulator.rs`.  `u8`/`u16` fields become `Nat`
(wrapping is applied explicitly at each operation that wraps in Rust), and
the fixed-size arrays become functions out of `Fin`. -/
structure Chip8 where
  reg_pc : Nat
  reg_sp : Nat
  reg_i : Nat
  reg_timer_delay : Nat
  reg_timer_sound : Nat
  reg_v : Fin 16 → Nat
  stack : Fin 16 → Nat
  memory : Fin 4096 → Nat
  keyboard : Fin 16 → Bool
  display : Fin (64 * 32) → Bool

/-- `get_opcode` in `src/emulator.rs`: big-endian composition of the bytes at
`pc` and `pc + 1`; either read out of bounds is a fault (`expect`). -/
def get_opcode (memory : Fin 4096 → Nat) (pc : Nat) : Except Fault Nat :=
  if h1 : pc < 4096 then
    if h2 : pc + 1 < 4096 then
      .ok (memory ⟨pc, h1⟩ * 256 + memory ⟨pc + 1, h2⟩)
    else .error .pcOutOfBounds
  else .error .pcOutOfBounds

/-- Writes consecutive bytes starting at `addr`, as the loops of `load` and
`initialize_memory` in `src/emulator.rs` do.  Both call sites keep every
written address below 4096, so the out-of-range guard is never taken there. -/
def storeBytes (mem : Fin 4096 → Nat) (addr : Nat) : List Nat → (Fin 4096 → Nat)
  | [] => mem
  | b :: rest =>
      if h : addr < 4096 then
        storeBytes (Function.update mem ⟨addr, h⟩ b) (addr + 1) rest
      else mem

/-- `ALL_SPRITE_DATA` in `src/emulator.rs`: the 16 five-byte font glyphs. -/
def ALL_SPRITE_DATA : List Nat :=
  [0xF0, 0x90, 0x90, 0x90, 0xF0,
   0x20, 0x60, 0x20, 0x20, 0x70,
   0xF0, 0x10, 0xF0, 0x80, 0xF0,
   0xF0, 0x10, 0xF0, 0x10, 0xF0,
   0x90, 0x90, 0xF0, 0x10, 0x10,
   0xF0, 0x80, 0xF0, 0x10, 0xF0,
   0xF0, 0x80, 0xF0, 0x90, 0xF0,
   0xF0, 0x10, 0x20, 0x40, 0x40,
   0xF0, 0x90, 0xF0, 0x90, 0xF0,
   0xF0, 0x90, 0xF0, 0x10, 0xF0,
   0xF0, 0x90, 0xF0, 0x90, 0x90,
   0xE0, 0x90, 0xE0, 0x90, 0xE0,
   0xF0, 0x80, 0x80, 0x80, 0xF0,
   0xE0, 0x90, 0x90, 0x90, 0xE0,
   0xF0, 0x80, 0xF0, 0x80, 0xF0,
   0xF0, 0x80, 0xF0, 0x80, 0x80]

/-- `initialize_memory` in `src/emulator.rs`: all zero except the font table
written at `SPRITE_START`. -/
def init_memory : Fin 4096 → Nat :=
  storeBytes (fun _ => 0) SPRITE_START ALL_SPRITE_DATA

/-- `Chip8::new` in `src/emulator.rs` (the `redraw` callback is dropped). -/
def Chip8.new : Chip8 where
  reg_pc := PROG_START
  reg_sp := 0
  reg_i := 0
  reg_timer_delay := 0
  reg_timer_sound := 0
  reg_v := fun _ => 0
  stack := fun _ => 0
  memory := init_memory
  keyboard := fun _ => false
  display := fun _ => false

/-- `Chip8::load` in `src/emulator.rs`.  The Rust method mutates `self` and
returns `Result<(), &str>`; here the pair returns the (possibly updated)
state together with the outcome.  On the error path the Rust code returns
before any write, so the state is returned unchanged. -/
def Chip8.load (s : Chip8) (data : List Nat) : Chip8 × Except String Unit :=
  if data.length > PROG_END - PROG_START then
    (s, .error "ROM data is too large for memory.")
  else
    ({ s with memory := storeBytes s.memory PROG_START data }, .ok ())

/-- One pixel of the `0xDXYN` sprite loop in `src/emulator.rs`: for the pair
`p = (row, col)` the Rust body computes
`index = DISPLAY_WIDTH * (vy_value + row) + vx_value + col` (no modular
wrap), reads the sprite byte `memory[reg_i + row]` (panic when out of
bounds), tests bit `7 - col`, raises the collision flag when a set pixel
receives an unset bit, and stores the bit into `display[index]` (panic when
out of bounds).  The accumulator carries the display and the value of
`reg_v[15]`. -/
def drawPixel (mem : Fin 4096 → Nat) (I x y : Nat) (p : Nat × Nat)
    (acc : (Fin (64 * 32) → Bool) × Nat) :
    Except Fault ((Fin (64 * 32) → Bool) × Nat) :=
  if hm : I + p.1 < 4096 then
    let value : Bool := (mem ⟨I + p.1, hm⟩ &&& 2 ^ (7 - p.2)) != 0
    if hd : DISPLAY_WIDTH * (y + p.1) + x + p.2 < 64 * 32 then
      let j : Fin (64 * 32) := ⟨DISPLAY_WIDTH * (y + p.1) + x + p.2, hd⟩
      .ok (Function.update acc.1 j value,
           if acc.1 j && !value then 1 else acc.2)
    else .error .displayOutOfBounds
  else .error .memoryOutOfBounds

/-- The nested `for row in 0..byte_count { for col in 0..8 { ... } }` loop of
`0xDXYN`, expressed as a left-to-right pass over an explicit list of
`(row, col)` pairs. -/
def drawLoop (mem : Fin 4096 → Nat) (I x y : Nat) :
    List (Nat × Nat) → (Fin (64 * 32) → Bool) × Nat →
    Except Fault ((Fin (64 * 32) → Bool) × Nat)
  | [], acc => .ok acc
  | p :: rest, acc =>
      match drawPixel mem I x y p acc with
      | .error e => .error e
      | .ok acc' => drawLoop mem I x y rest acc'

/-- The `(row, col)` pairs visited by the `0xDXYN` loops, in execution order:
row-major, rows `0..n-1`, columns `0..7`. -/
def pixelPairs (n : Nat) : List (Nat × Nat) :=
  (List.range n).flatMap fun row => (List.range 8).map fun col => (row, col)

/-- One iteration of the `0xFX55` loop in `src/emulator.rs`: write register
`index` at `memory[reg_i]` (panic when out of bounds) and advance `reg_i`. -/
def saveStep (v : Fin 16 → Nat) (acc : (Fin 4096 → Nat) × Nat) (index : Fin 16) :
    Except Fault ((Fin 4096 → Nat) × Nat) :=
  if h : acc.2 < 4096 then
    .ok (Function.update acc.1 ⟨acc.2, h⟩ (v index), acc.2 + 1)
  else .error .memoryOutOfBounds

/-- The `for index in 0..=max_index` loop of `0xFX55`. -/
def saveLoop (v : Fin 16 → Nat) :
    List (Fin 16) → (Fin 4096 → Nat) × Nat →
    Except Fault ((Fin 4096 → Nat) × Nat)
  | [], acc => .ok acc
  | i :: rest, acc =>
      match saveStep v acc i with
      | .error e => .error e
      | .ok acc' => saveLoop v rest acc'

/-- One iteration of the `0xFX65` loop in `src/emulator.rs`: read
`memory[reg_i]` (the `expect` faults when out of bounds) into register
`index` and advance `reg_i`. -/
def loadStep (mem : Fin 4096 → Nat) (acc : (Fin 16 → Nat) × Nat) (index : Fin 16) :
    Except Fault ((Fin 16 → Nat) × Nat) :=
  if h : acc.2 < 4096 then
    .ok (Function.update acc.1 index (mem ⟨acc.2, h⟩), acc.2 + 1)
  else .error .memoryOutOfBounds

/-- The `for index in 0..=max_index` loop of `0xFX65`. -/
def loadLoop (mem : Fin 4096 → Nat) :
    List (Fin 16) → (Fin 16 → Nat) × Nat →
    Except Fault ((Fin 16 → Nat) × Nat)
  | [], acc => .ok acc
  | i :: rest, acc =>
      match loadStep mem acc i with
      | .error e => .error e
      | .ok acc' => loadLoop mem rest acc'

/-- `Chip8::cycle` in `src/emulator.rs`.  The dispatch is the same ordered
`if`/`else if` chain; every Rust mask test is transcribed as its
quotient/remainder equivalent (for any `a`,
`(a & 0xF000) == 0xK000 ↔ a / 4096 % 16 = K`,
`(a & 0xFFFF) == c ↔ a % 65536 = c`,
`(a & 0x0FFF) = a % 4096`, `(a & 0xFF) = a % 256`,
`(a & 0x0F00) >> 8 = a / 256 % 16`, `(a & 0x00F0) >> 4 = a / 16 % 16`,
`(a & 0x0F) = a % 16`).  `rnd` is the byte produced by `rng.gen::<u8>()`
for opcode `0xCXNN`.  `execOp` is the dispatch on a fetched opcode;
`Chip8.cycle` below fetches and dispatches. -/
def execOp (rnd : Nat) (s : Chip8) (opcode : Nat) : Except Fault Chip8 :=
    -- 0x00E0 (clear the screen); `opcode & 0xFFFF == 0x00E0`
    if opcode % 65536 = 0x00E0 then
      .ok { s with display := fun _ => false, reg_pc := s.reg_pc + 2 }
    -- 0x00EE (return from subroutine); `opcode & 0xFFFF == 0x00EE`
    else if opcode % 65536 = 0x00EE then
      if s.reg_sp = 0 then .error .stackUnderflow
      else if h : s.reg_sp - 1 < 16 then
        .ok { s with
              reg_sp := s.reg_sp - 1,
              reg_pc := s.stack ⟨s.reg_sp - 1, h⟩ + 2 }
      else .error .stackUnderflow
    -- 0x1NNN (jump); `opcode & 0xF000 == 0x1000`
    else if opcode / 4096 % 16 = 0x1 then
      .ok { s with reg_pc := opcode % 4096 }
    -- 0x2NNN (call subroutine); `opcode & 0xF000 == 0x2000`
    else if opcode / 4096 % 16 = 0x2 then
      if h : s.reg_sp < 16 then
        .ok { s with
              stack := Function.update s.stack ⟨s.reg_sp, h⟩ s.reg_pc,
              reg_sp := s.reg_sp + 1,
              reg_pc := opcode % 4096 }
      else .error .stackOverflow
    -- 0x3XNN (if vx != NN then); `opcode & 0xF000 == 0x3000`
    else if opcode / 4096 % 16 = 0x3 then
      .ok { s with reg_pc :=
        (if opcode % 256 = s.reg_v ⟨opcode / 256 % 16, by omega⟩
         then s.reg_pc + 2 else s.reg_pc) + 2 }
    -- 0x4XNN (if vx == NN then); `opcode & 0xF000 == 0x4000`
    else if opcode / 4096 % 16 = 0x4 then
      .ok { s with reg_pc :=
        (if opcode % 256 ≠ s.reg_v ⟨opcode / 256 % 16, by omega⟩
         then s.reg_pc + 2 else s.reg_pc) + 2 }
    -- 0x5XY0 (if vx != vy then); `opcode & 0xF00F == 0x5000`
    else if opcode / 4096 % 16 = 0x5 ∧ opcode % 16 = 0x0 then
      .ok { s with reg_pc :=
        (if s.reg_v ⟨opcode / 256 % 16, by omega⟩ =
            s.reg_v ⟨opcode / 16 % 16, by omega⟩
         then s.reg_pc + 2 else s.reg_pc) + 2 }
    -- 0x6XNN (vx := NN); `opcode & 0xF000 == 0x6000`; `opcode as u8`
    else if opcode / 4096 % 16 = 0x6 then
      .ok { s with
            reg_v := Function.update s.reg_v ⟨opcode / 256 % 16, by omega⟩
              (opcode % 256),
            reg_pc := s.reg_pc + 2 }
    -- 0x7XNN (vx += NN); `opcode & 0xF000 == 0x7000`; `u8::wrapping_add`
    else if opcode / 4096 % 16 = 0x7 then
      .ok { s with
            reg_v := Function.update s.reg_v ⟨opcode / 256 % 16, by omega⟩
              ((s.reg_v ⟨opcode / 256 % 16, by omega⟩ + opcode % 256) % 256),
            reg_pc := s.reg_pc + 2 }
    -- 0x8XY0 (vx := vy); `opcode & 0xF00F == 0x8000`
    else if opcode / 4096 % 16 = 0x8 ∧ opcode % 16 = 0x0 then
      .ok { s with
            reg_v := Function.update s.reg_v ⟨opcode / 256 % 16, by omega⟩
              (s.reg_v ⟨opcode / 16 % 16, by omega⟩),
            reg_pc := s.reg_pc + 2 }
    -- 0x8XY1 (vx |= vy); `opcode & 0xF00F == 0x8001`
    else if opcode / 4096 % 16 = 0x8 ∧ opcode % 16 = 0x1 then
      .ok { s with
            reg_v := Function.update s.reg_v ⟨opcode / 256 % 16, by omega⟩
              (s.reg_v ⟨opcode / 256 % 16, by omega⟩ |||
               s.reg_v ⟨opcode / 16 % 16, by omega⟩),
            reg_pc := s.reg_pc + 2 }
    -- 0x8XY2 (vx &= vy); `opcode & 0xF00F == 0x8002`
    else if opcode / 4096 % 16 = 0x8 ∧ opcode % 16 = 0x2 then
      .ok { s with
            reg_v := Function.update s.reg_v ⟨opcode / 256 % 16, by omega⟩
              (s.reg_v ⟨opcode / 256 % 16, by omega⟩ &&&
               s.reg_v ⟨opcode / 16 % 16, by omega⟩),
            reg_pc := s.reg_pc + 2 }
    -- 0x8XY3 (vx ^= vy); `opcode & 0xF00F == 0x8003`
    else if opcode / 4096 % 16 = 0x8 ∧ opcode % 16 = 0x3 then
      .ok { s with
            reg_v := Function.update s.reg_v ⟨opcode / 256 % 16, by omega⟩
              (s.reg_v ⟨opcode / 256 % 16, by omega⟩ ^^^
               s.reg_v ⟨opcode / 16 % 16, by omega⟩),
            reg_pc := s.reg_pc + 2 }
    -- 0x8XY4 (vx += vy); `opcode & 0xF00F == 0x8004`; `u8::overflowing_add`:
    -- the wrapped sum is stored first, then VF receives the carry.
    else if opcode / 4096 % 16 = 0x8 ∧ opcode % 16 = 0x4 then
      .ok { s with
            reg_v := Function.update
              (Function.update s.reg_v ⟨opcode / 256 % 16, by omega⟩
                ((s.reg_v ⟨opcode / 256 % 16, by omega⟩ +
                  s.reg_v ⟨opcode / 16 % 16, by omega⟩) % 256))
              15
              (if 256 ≤ s.reg_v ⟨opcode / 256 % 16, by omega⟩ +
                       s.reg_v ⟨opcode / 16 % 16, by omega⟩ then 1 else 0),
            reg_pc := s.reg_pc + 2 }
    -- 0x8XY5 (vx -= vy); `opcode & 0xF00F == 0x8005`; `u8::overflowing_sub`:
    -- for bytes `a`, `b` the wrapped difference is `(a + 256 - b) % 256` and
    -- the overflow flag is the borrow `a < b`.
    else if opcode / 4096 % 16 = 0x8 ∧ opcode % 16 = 0x5 then
      .ok { s with
            reg_v := Function.update
              (Function.update s.reg_v ⟨opcode / 256 % 16, by omega⟩
                ((s.reg_v ⟨opcode / 256 % 16, by omega⟩ + 256 -
                  s.reg_v ⟨opcode / 16 % 16, by omega⟩) % 256))
              15
              (if s.reg_v ⟨opcode / 256 % 16, by omega⟩ <
                  s.reg_v ⟨opcode / 16 % 16, by omega⟩ then 1 else 0),
            reg_pc := s.reg_pc + 2 }
    -- 0x8XY6 (vx >>= vy); `opcode & 0xF00F == 0x8006`: `vx = vy >> 1`,
    -- then `VF = vy & 1`.
    else if opcode / 4096 % 16 = 0x8 ∧ opcode % 16 = 0x6 then
      .ok { s with
            reg_v := Function.update
              (Function.update s.reg_v ⟨opcode / 256 % 16, by omega⟩
                (s.reg_v ⟨opcode / 16 % 16, by omega⟩ / 2))
              15
              (s.reg_v ⟨opcode / 16 % 16, by omega⟩ % 2),
            reg_pc := s.reg_pc + 2 }
    -- 0x8XY7 (vx =- vy); `opcode & 0xF00F == 0x8007`; `u8::overflowing_sub`
    -- the other way around.
    else if opcode / 4096 % 16 = 0x8 ∧ opcode % 16 = 0x7 then
      .ok { s with
            reg_v := Function.update
              (Function.update s.reg_v ⟨opcode / 256 % 16, by omega⟩
                ((s.reg_v ⟨opcode / 16 % 16, by omega⟩ + 256 -
                  s.reg_v ⟨opcode / 256 % 16, by omega⟩) % 256))
              15
              (if s.reg_v ⟨opcode / 16 % 16, by omega⟩ <
                  s.reg_v ⟨opcode / 256 % 16, by omega⟩ then 1 else 0),
            reg_pc := s.reg_pc + 2 }
    -- 0x8XYE (vx <<= vy); `opcode & 0xF00F == 0x800E`: `vx = vy << 1` on
    -- `u8` (the high bit is discarded), then `VF = vy & 0b10000000`.
    else if opcode / 4096 % 16 = 0x8 ∧ opcode % 16 = 0xE then
      .ok { s with
            reg_v := Function.update
              (Function.update s.reg_v ⟨opcode / 256 % 16, by omega⟩
                (s.reg_v ⟨opcode / 16 % 16, by omega⟩ * 2 % 256))
              15
              (s.reg_v ⟨opcode / 16 % 16, by omega⟩ &&& 0x80),
            reg_pc := s.reg_pc + 2 }
    -- 0x9XY0 (if vx == vy then); `opcode & 0xF00F == 0x9000`
    else if opcode / 4096 % 16 = 0x9 ∧ opcode % 16 = 0x0 then
      .ok { s with reg_pc :=
        (if s.reg_v ⟨opcode / 256 % 16, by omega⟩ ≠
            s.reg_v ⟨opcode / 16 % 16, by omega⟩
         then s.reg_pc + 2 else s.reg_pc) + 2 }
    -- 0xANNN (i := NNN); `opcode & 0xF000 == 0xA000`
    else if opcode / 4096 % 16 = 0xA then
      .ok { s with reg_i := opcode % 4096, reg_pc := s.reg_pc + 2 }
    -- 0xBNNN (jump0 NNN); `opcode & 0xF000 == 0xB000`
    else if opcode / 4096 % 16 = 0xB then
      .ok { s with reg_pc := opcode % 4096 + s.reg_v 0 }
    -- 0xCXNN (vx := random NN); `opcode & 0xF000 == 0xC000`
    else if opcode / 4096 % 16 = 0xC then
      .ok { s with
            reg_v := Function.update s.reg_v ⟨opcode / 256 % 16, by omega⟩
              (rnd % 256 &&& opcode % 256),
            reg_pc := s.reg_pc + 2 }
    -- 0xDXYN (sprite vx vy N); `opcode & 0xF000 == 0xD000`.  `reg_v[15]` is
    -- zeroed before the loop and possibly raised inside it; on success the
    -- accumulator holds its final value (a panic inside the loop aborts the
    -- run, so partial mutation is unobservable).
    else if opcode / 4096 % 16 = 0xD then
      match drawLoop s.memory s.reg_i
          (s.reg_v ⟨opcode / 256 % 16, by omega⟩)
          (s.reg_v ⟨opcode / 16 % 16, by omega⟩)
          (pixelPairs (opcode % 16)) (s.display, 0) with
      | .error e => .error e
      | .ok acc =>
          .ok { s with
                display := acc.1,
                reg_v := Function.update s.reg_v 15 acc.2,
                reg_pc := s.reg_pc + 2 }
    -- 0xEX9E (if vx -key then); `opcode & 0xF0FF == 0xE09E`
    else if opcode / 4096 % 16 = 0xE ∧ opcode % 256 = 0x9E then
      if hk : s.reg_v ⟨opcode / 256 % 16, by omega⟩ < 16 then
        .ok { s with reg_pc :=
          (if s.keyboard ⟨s.reg_v ⟨opcode / 256 % 16, by omega⟩, hk⟩
           then s.reg_pc + 2 else s.reg_pc) + 2 }
      else .error .keyboardOutOfBounds
    -- 0xEXA1 (if vx key then); `opcode & 0xF0FF == 0xE0A1`
    else if opcode / 4096 % 16 = 0xE ∧ opcode % 256 = 0xA1 then
      if hk : s.reg_v ⟨opcode / 256 % 16, by omega⟩ < 16 then
        .ok { s with reg_pc :=
          (if !s.keyboard ⟨s.reg_v ⟨opcode / 256 % 16, by omega⟩, hk⟩
           then s.reg_pc + 2 else s.reg_pc) + 2 }
      else .error .keyboardOutOfBounds
    -- 0xFX07 (vx := delay); `opcode & 0xF0FF == 0xF007`
    else if opcode / 4096 % 16 = 0xF ∧ opcode % 256 = 0x07 then
      .ok { s with
            reg_v := Function.update s.reg_v ⟨opcode / 256 % 16, by omega⟩
              s.reg_timer_delay,
            reg_pc := s.reg_pc + 2 }
    -- 0xFX0A; `opcode & 0xF0FF == 0xF00A`: `todo!("FX0A")`
    else if opcode / 4096 % 16 = 0xF ∧ opcode % 256 = 0x0A then
      .error .notImplementedFX0A
    -- 0xFX15 (delay := vx); `opcode & 0xF0FF == 0xF015`
    else if opcode / 4096 % 16 = 0xF ∧ opcode % 256 = 0x15 then
      .ok { s with
            reg_timer_delay := s.reg_v ⟨opcode / 256 % 16, by omega⟩,
            reg_pc := s.reg_pc + 2 }
    -- 0xFX18 (buzzer := vx); `opcode & 0xF0FF == 0xF018`
    else if opcode / 4096 % 16 = 0xF ∧ opcode % 256 = 0x18 then
      .ok { s with
            reg_timer_sound := s.reg_v ⟨opcode / 256 % 16, by omega⟩,
            reg_pc := s.reg_pc + 2 }
    -- 0xFX1E (i += vx); `opcode & 0xF0FF == 0xF01E`
    else if opcode / 4096 % 16 = 0xF ∧ opcode % 256 = 0x1E then
      .ok { s with
            reg_i := s.reg_i + s.reg_v ⟨opcode / 256 % 16, by omega⟩,
            reg_pc := s.reg_pc + 2 }
    -- 0xFX29 (i := hex vx); `opcode & 0xF0FF == 0xF029`
    else if opcode / 4096 % 16 = 0xF ∧ opcode % 256 = 0x29 then
      if 15 < s.reg_v ⟨opcode / 256 % 16, by omega⟩ then
        .error .digitOutOfRange
      else
        .ok { s with
              reg_i := SPRITE_START +
                s.reg_v ⟨opcode / 256 % 16, by omega⟩ * SPRITE_BYTE_WIDTH,
              reg_pc := s.reg_pc + 2 }
    -- 0xFX33 (bcd vx); `opcode & 0xF0FF == 0xF033`: three bounds-checked
    -- writes at `reg_i`, `reg_i + 1`, `reg_i + 2` (all three are in range
    -- exactly when `reg_i + 2` is).
    else if opcode / 4096 % 16 = 0xF ∧ opcode % 256 = 0x33 then
      if h : s.reg_i + 2 < 4096 then
        .ok { s with
              memory := Function.update (Function.update (Function.update
                s.memory
                ⟨s.reg_i, by omega⟩
                (s.reg_v ⟨opcode / 256 % 16, by omega⟩ / 100))
                ⟨s.reg_i + 1, by omega⟩
                (s.reg_v ⟨opcode / 256 % 16, by omega⟩ / 10 % 10))
                ⟨s.reg_i + 2, h⟩
                (s.reg_v ⟨opcode / 256 % 16, by omega⟩ % 10),
              reg_pc := s.reg_pc + 2 }
      else .error .memoryOutOfBounds
    -- 0xFX55 (save vx); `opcode & 0xF0FF == 0xF055`
    else if opcode / 4096 % 16 = 0xF ∧ opcode % 256 = 0x55 then
      match saveLoop s.reg_v ((List.finRange 16).take (opcode / 256 % 16 + 1))
          (s.memory, s.reg_i) with
      | .error e => .error e
      | .ok acc =>
          .ok { s with memory := acc.1, reg_i := acc.2, reg_pc := s.reg_pc + 2 }
    -- 0xFX65 (load vx); `opcode & 0xF0FF == 0xF065`
    else if opcode / 4096 % 16 = 0xF ∧ opcode % 256 = 0x65 then
      match loadLoop s.memory ((List.finRange 16).take (opcode / 256 % 16 + 1))
          (s.reg_v, s.reg_i) with
      | .error e => .error e
      | .ok acc =>
          .ok { s with reg_v := acc.1, reg_i := acc.2, reg_pc := s.reg_pc + 2 }
    else
      .error (.unknownOpcode opcode)

/-- `Chip8::cycle` in `src/emulator.rs`: fetch the opcode at `reg_pc`
(faulting when the fetch is out of bounds) and dispatch on it. -/
def Chip8.cycle (rnd : Nat) (s : Chip8) : Except Fault Chip8 :=
  match get_opcode s.memory s.reg_pc with
  | .error e => .error e
  | .ok opcode => execOp rnd s opcode

/-- Dispatch lemma: once the fetch result is known, `cycle` is `execOp`. -/
theorem cycle_ok_fetch (rnd : Nat) (s : Chip8) (op : Nat)
    (hop : get_opcode s.memory s.reg_pc = .ok op) :
    s.cycle rnd = execOp rnd s op := by
  simp only [Chip8.cycle, hop]

/-- Reads the byte at address `a`, or `0` out of range.  Observation helper
for stating theorems; the embedded code itself uses the bounds-checked
accesses above. -/
def memAt (mem : Fin 4096 → Nat) (a : Nat) : Nat :=
  if h : a < 4096 then mem ⟨a, h⟩ else 0

/-- Reads the pixel at row-major index `i`, or `false` out of range.
Observation helper for stating theorems. -/
def dispAt (d : Fin (64 * 32) → Bool) (i : Nat) : Bool :=
  if h : i < 64 * 32 then d ⟨i, h⟩ else false

/-- Projects the value of register `i` out of a `cycle` result.  Observation
helper for stating theorems about concrete runs. -/
def regOf (r : Except Fault Chip8) (i : Fin 16) : Option Nat :=
  match r with
  | .ok s => some (s.reg_v i)
  | .error _ => none

/-- Modelled from the spec: the Timer Clock of spec section 4.4 is absent
from `src/src/emulator.rs` (`cycle` contains no timer logic and the struct
has no timestamp field); only its test (`decrements_timers` in
`src/src/emulator_test.rs`) and its caller (`main.rs`) are in the sources.
Following the spec's words, the machine state is extended with "a timestamp
at last decrement"; wall-clock time is measured in nanoseconds. -/
structure Chip8Timed where
  core : Chip8
  last_decrement : Nat

/-- Modelled from the spec: "a fixed period of 1/60 second", in
nanoseconds. -/
def TIMER_PERIOD : Nat := 1000000000 / 60

/-- Modelled from the spec: "on each `step()`, if elapsed wall-clock time
since the last decrement meets or exceeds the period, both timers are
decremented by 1 with saturation at 0, and the timestamp resets to now"
(spec section 4.4).  `now` is the current wall-clock reading in
nanoseconds; `Nat` subtraction is the required saturation at 0. -/
def tickTimers (now : Nat) (t : Chip8Timed) : Chip8Timed :=
  if TIMER_PERIOD ≤ now - t.last_decrement then
    { core := { t.core with
                reg_timer_delay := t.core.reg_timer_delay - 1,
                reg_timer_sound := t.core.reg_timer_sound - 1 },
      last_decrement := now }
  else t

/-- Modelled from the spec: the `step()` entry point of spec section 4.2
first advances the Timer Clock, then fetches, decodes and executes one
instruction (the embedded `Chip8.cycle`). -/
def Chip8Timed.step (now rnd : Nat) (t : Chip8Timed) : Except Fault Chip8Timed :=
  match (tickTimers now t).core.cycle rnd with
  | .error e => .error e
  | .ok c => .ok { core := c, last_decrement := (tickTimers now t).last_decrement }

theorem storeBytes_lt_addr (data : List Nat) :
    ∀ (mem : Fin 4096 → Nat) (addr : Nat) (j : Fin 4096), j.val < addr →
      storeBytes mem addr data j = mem j := by
  induction data with
  | nil => intro mem addr j _; rfl
  | cons b rest ih =>
    intro mem addr j h
    unfold storeBytes
    split
    · rw [ih _ _ _ (by omega),
        Function.update_noteq (Fin.ne_of_val_ne (show j.val ≠ addr by omega))]
    · rfl

theorem storeBytes_get (data : List Nat) :
    ∀ (mem : Fin 4096 → Nat) (addr k : Nat) (hk : k < data.length),
      addr + data.length ≤ 4096 → ∀ (hj : addr + k < 4096),
      storeBytes mem addr data ⟨addr + k, hj⟩ = data.get ⟨k, hk⟩ := by
  induction data with
  | nil => intro mem addr k hk; exact absurd hk (by simp)
  | cons b rest ih =>
    intro mem addr k hk h4 hj
    unfold storeBytes
    rw [dif_pos (by simp at h4; omega)]
    match k with
    | 0 =>
        have he : (⟨addr + 0, hj⟩ : Fin 4096) = ⟨addr, by omega⟩ :=
          Fin.ext (show addr + 0 = addr by omega)
        rw [he, storeBytes_lt_addr rest _ _ _ (show addr < addr + 1 by omega),
          Function.update_same]
        rfl
    | k' + 1 =>
        have he : (⟨addr + (k' + 1), hj⟩ : Fin 4096) =
            ⟨(addr + 1) + k', by omega⟩ :=
          Fin.ext (show addr + (k' + 1) = (addr + 1) + k' by omega)
        rw [he, ih _ _ _ (by simpa using Nat.lt_of_succ_lt_succ hk)
          (by simp at h4 ⊢; omega)]
        rfl

/-- C4: for every byte vector of length at most 3232, `load` succeeds and
byte `k` of the vector is stored at memory address `0x200 + k` for every
`k` below the length; for every longer vector, `load` fails with the
`RomTooLarge` condition (the Rust error value
`"ROM data is too large for memory."`) and the state, its memory image
included, is returned unchanged: no partial write occurs on failure. -/
theorem C4_load_rom (s : Chip8) (data : List Nat) :
    (data.length ≤ 3232 →
      (s.load data).2 = .ok () ∧
      ∀ k (hk : k < data.length) (hj : 0x200 + k < 4096),
        (s.load data).1.memory ⟨0x200 + k, hj⟩ = data.get ⟨k, hk⟩) ∧
    (data.length > 3232 →
      (s.load data).2 = .error "ROM data is too large for memory." ∧
      (s.load data).1 = s) := by
  constructor
  · intro hle
    have hns : ¬ data.length > PROG_END - PROG_START := by
      simp only [PROG_END, PROG_START]; omega
    refine ⟨by simp [Chip8.load, hns], ?_⟩
    intro k hk hj
    simp only [Chip8.load, hns, if_false]
    exact storeBytes_get data s.memory PROG_START k hk
      (by simp only [PROG_START]; omega) hj
  · intro hgt
    have hs : data.length > PROG_END - PROG_START := by
      simp only [PROG_END, PROG_START]; omega
    exact ⟨by simp [Chip8.load, hs], by simp [Chip8.load, hs]⟩

/-- Witness for C4 at concrete inputs: loading `[7, 8, 9]` into a fresh
machine succeeds and places byte 2 at address `0x202`; loading 3233 bytes
fails with the `RomTooLarge` message and leaves the machine unchanged. -/
theorem C4_load_rom_witness :
    ((Chip8.new.load [7, 8, 9]).2 = .ok () ∧
      (Chip8.new.load [7, 8, 9]).1.memory ⟨0x202, by omega⟩ = 9) ∧
    ((Chip8.new.load (List.replicate 3233 1)).2 =
        .error "ROM data is too large for memory." ∧
      (Chip8.new.load (List.replicate 3233 1)).1 = Chip8.new) := by
  refine ⟨⟨((C4_load_rom Chip8.new [7, 8, 9]).1 (by decide)).1, ?_⟩, ?_⟩
  · exact ((C4_load_rom Chip8.new [7, 8, 9]).1 (by decide)).2 2
      (by decide) (by omega)
  · exact (C4_load_rom Chip8.new (List.replicate 3233 1)).2
      (by simp only [List.length_replicate]; omega)

instance {ε α : Type} [DecidableEq ε] [DecidableEq α] : DecidableEq (Except ε α) :=
  fun a b =>
    match a, b with
    | .ok x, .ok y => decidable_of_iff (x = y) (by simp)
    | .error e, .error f => decidable_of_iff (e = f) (by simp)
    | .ok _, .error _ => isFalse (by simp)
    | .error _, .ok _ => isFalse (by simp)

/-- Projects the fault out of a `cycle` result.  Observation helper for
stating theorems about concrete runs. -/
def faultOf (r : Except Fault Chip8) : Option Fault :=
  match r with
  | .ok _ => none
  | .error e => some e

/-- A fresh machine whose program is the single instruction `0xF40A`
("store the pressed key into `V4`"), with no key pressed on the keyboard
latch (as in `Chip8::new`). -/
def C2state : Chip8 :=
  { Chip8.new with memory := storeBytes Chip8.new.memory 0x200 [0xF4, 0x0A] }

/-- C2: executing the "store pressed key" opcode `FX0A` is expected to leave
the machine state unchanged while no key is pressed and to store the lowest
pressed key index once one is pressed.  The code instead hits
`todo!("FX0A")` and panics unconditionally: on the embedded semantics,
`cycle` on a state fetching `0xF40A` returns the `notImplementedFX0A`
fault instead of a successor state, for any keyboard contents.  This
contradicts the repository's own test `wait_for_key` in
`src/emulator_test.rs` (which expects the PC to stay put with no key
pressed, and `V4 = 10`, `PC + 2` after key 10 is pressed), so the claim
describes the intent and the code is the defect. -/
theorem C2_fx0a_todo :
    faultOf (Chip8.cycle 0 C2state) = some .notImplementedFX0A ∧
    faultOf (Chip8.cycle 0
      { C2state with keyboard := Function.update C2state.keyboard 10 true }) =
      some .notImplementedFX0A := by
  constructor
  · decide
  · decide

/-- C3 (spec-modelled: the Timer Clock is absent from `src/emulator.rs`; see
`Chip8Timed`): on every invocation of `step`, the Timer Clock is advanced
before instruction dispatch — `step` dispatches on the already-ticked state —
and when at least one period (1/60 s) of wall-clock time has elapsed since
the last decrement, both the delay and the sound timer are decremented by
exactly 1, saturating at 0 (`Nat` subtraction), and the decrement timestamp
is reset to `now`. -/
theorem C3_timer_decay (t : Chip8Timed) (now rnd : Nat)
    (helapsed : TIMER_PERIOD ≤ now - t.last_decrement) :
    (tickTimers now t).core.reg_timer_delay = t.core.reg_timer_delay - 1 ∧
    (tickTimers now t).core.reg_timer_sound = t.core.reg_timer_sound - 1 ∧
    (tickTimers now t).last_decrement = now ∧
    (t.core.reg_timer_delay = 0 → (tickTimers now t).core.reg_timer_delay = 0) ∧
    (t.core.reg_timer_sound = 0 → (tickTimers now t).core.reg_timer_sound = 0) ∧
    t.step now rnd =
      (match (tickTimers now t).core.cycle rnd with
       | .error e => .error e
       | .ok c => .ok { core := c, last_decrement := now }) := by
  have ht : tickTimers now t =
      { core := { t.core with
                  reg_timer_delay := t.core.reg_timer_delay - 1,
                  reg_timer_sound := t.core.reg_timer_sound - 1 },
        last_decrement := now } := by
    unfold tickTimers
    rw [if_pos helapsed]
  refine ⟨by rw [ht], by rw [ht], by rw [ht], ?_, ?_, ?_⟩
  · intro h0; rw [ht]; simpa using by omega
  · intro h0; rw [ht]; simpa using by omega
  · unfold Chip8Timed.step
    rw [ht]

/-- Witness for C3: a machine with both timers at 30 whose last decrement
was at time 0, stepped at `now = TIMER_PERIOD`, has both timers at 29 after
the tick, and the tick happens before dispatch. -/
theorem C3_timer_decay_witness :
    (TIMER_PERIOD ≤ TIMER_PERIOD - 0) ∧
    (tickTimers TIMER_PERIOD
      { core := { Chip8.new with reg_timer_delay := 30, reg_timer_sound := 30 },
        last_decrement := 0 }).core.reg_timer_delay = 30 - 1 := by
  constructor
  · decide
  · exact (C3_timer_decay
      { core := { Chip8.new with reg_timer_delay := 30, reg_timer_sound := 30 },
        last_decrement := 0 } TIMER_PERIOD 0 (by decide)).1

/-- Branch lemma for `0x00EE` (return) on a non-empty stack. -/
theorem cycle_ret (s : Chip8) (rnd op : Nat)
    (hop : get_opcode s.memory s.reg_pc = .ok op)
    (hEE : op % 65536 = 0x00EE) (hsp0 : ¬ s.reg_sp = 0)
    (hsp16 : s.reg_sp - 1 < 16) :
    s.cycle rnd = .ok { s with
      reg_sp := s.reg_sp - 1,
      reg_pc := s.stack ⟨s.reg_sp - 1, hsp16⟩ + 2 } := by
  rw [cycle_ok_fetch rnd s op hop]
  unfold execOp
  rw [if_neg (show ¬ op % 65536 = 0x00E0 by omega)]
  rw [if_pos hEE, if_neg hsp0, dif_pos hsp16]


/-- Branch lemma for `0x00EE` (return) on an empty stack: `checked_sub`
yields `None` and the code panics with "Stack underflow.". -/
theorem cycle_ret_underflow (s : Chip8) (rnd op : Nat)
    (hop : get_opcode s.memory s.reg_pc = .ok op)
    (hEE : op % 65536 = 0x00EE) (hsp0 : s.reg_sp = 0) :
    s.cycle rnd = .error .stackUnderflow := by
  rw [cycle_ok_fetch rnd s op hop]
  unfold execOp
  rw [if_neg (show ¬ op % 65536 = 0x00E0 by omega)]
  rw [if_pos hEE, if_pos hsp0]


/-- Branch lemma for `0x2NNN` (call) with room on the stack. -/
theorem cycle_call (s : Chip8) (rnd op : Nat)
    (hop : get_opcode s.memory s.reg_pc = .ok op)
    (h2 : op / 4096 % 16 = 0x2) (hsp : s.reg_sp < 16) :
    s.cycle rnd = .ok { s with
      stack := Function.update s.stack ⟨s.reg_sp, hsp⟩ s.reg_pc,
      reg_sp := s.reg_sp + 1,
      reg_pc := op % 4096 } := by
  rw [cycle_ok_fetch rnd s op hop]
  unfold execOp
  rw [if_neg (show ¬ op % 65536 = 0x00E0 by omega)]
  rw [if_neg (show ¬ op % 65536 = 0x00EE by omega)]
  rw [if_neg (show ¬ op / 4096 % 16 = 0x1 by omega)]
  rw [if_pos h2,
    dif_pos hsp]


/-- Branch lemma for `0x2NNN` (call) on a full stack: the code panics with
"Stack overflow.". -/
theorem cycle_call_overflow (s : Chip8) (rnd op : Nat)
    (hop : get_opcode s.memory s.reg_pc = .ok op)
    (h2 : op / 4096 % 16 = 0x2) (hsp : ¬ s.reg_sp < 16) :
    s.cycle rnd = .error .stackOverflow := by
  rw [cycle_ok_fetch rnd s op hop]
  unfold execOp
  rw [if_neg (show ¬ op % 65536 = 0x00E0 by omega)]
  rw [if_neg (show ¬ op % 65536 = 0x00EE by omega)]
  rw [if_neg (show ¬ op / 4096 % 16 = 0x1 by omega)]
  rw [if_pos h2,
    dif_neg hsp]


/-- C5: for every state with stack pointer strictly below 16 whose current
instruction is a call `0x2NNN`, one `cycle` sets the program counter to
`NNN`, increases the stack depth by 1, and places the pre-call program
counter on top of the stack; if the instruction at `NNN` is the return
`0x00EE`, the next `cycle` restores the program counter to the pre-call
program counter plus 2 and restores the original stack depth. -/
theorem C5_call_return (s : Chip8) (rnd₁ rnd₂ op : Nat)
    (hop : get_opcode s.memory s.reg_pc = .ok op)
    (h2 : op / 4096 % 16 = 0x2)
    (hsp : s.reg_sp < 16)
    (hret : get_opcode s.memory (op % 4096) = .ok 0x00EE) :
    ∃ s₁, s.cycle rnd₁ = .ok s₁ ∧ s₁.reg_pc = op % 4096 ∧
      s₁.reg_sp = s.reg_sp + 1 ∧ s₁.stack ⟨s.reg_sp, hsp⟩ = s.reg_pc ∧
      ∃ s₂, s₁.cycle rnd₂ = .ok s₂ ∧
        s₂.reg_pc = s.reg_pc + 2 ∧ s₂.reg_sp = s.reg_sp := by
  refine ⟨_, cycle_call s rnd₁ op hop h2 hsp, rfl, rfl,
    Function.update_same _ _ _, ?_⟩
  refine ⟨_, cycle_ret _ rnd₂ 0x00EE hret (by norm_num)
    (show ¬ s.reg_sp + 1 = 0 by omega)
    (show s.reg_sp + 1 - 1 < 16 by omega), ?_, rfl⟩
  show Function.update s.stack ⟨s.reg_sp, hsp⟩ s.reg_pc
      ⟨s.reg_sp + 1 - 1, by omega⟩ + 2 = s.reg_pc + 2
  exact congrArg (· + 2) (Function.update_same _ _ _)

/-- A fresh machine with `call 0x238` (`0x22 0x38`) at `0x200` and
`return` (`0x00 0xEE`) at `0x238`. -/
def C5state : Chip8 :=
  { Chip8.new with memory :=
      (storeBytes (storeBytes Chip8.new.memory 0x200 [0x22, 0x38])
        0x238 [0x00, 0xEE]) }

/-- Witness for C5 at the spec's concrete program: call `0x22 0x38` at
`0x200` then return. -/
theorem C5_call_return_witness :
    (get_opcode C5state.memory C5state.reg_pc = .ok 0x2238 ∧
     0x2238 / 4096 % 16 = 0x2 ∧ C5state.reg_sp < 16 ∧
     get_opcode C5state.memory (0x2238 % 4096) = .ok 0x00EE) ∧
    (∃ s₁, C5state.cycle 0 = .ok s₁ ∧ s₁.reg_pc = 0x2238 % 4096 ∧
      s₁.reg_sp = C5state.reg_sp + 1 ∧
      s₁.stack ⟨C5state.reg_sp, by decide⟩ = C5state.reg_pc ∧
      ∃ s₂, s₁.cycle 0 = .ok s₂ ∧
        s₂.reg_pc = C5state.reg_pc + 2 ∧ s₂.reg_sp = C5state.reg_sp) := by
  refine ⟨⟨by decide, by decide, by decide, by decide⟩, ?_⟩
  exact C5_call_return C5state 0 0 0x2238 (by decide) (by decide)
    (by decide) (by decide)

/-- C6: executing a call `0x2NNN` when the stack pointer equals 16 faults
with `stackOverflow`; executing a return `0x00EE` when the stack pointer
equals 0 faults with `stackUnderflow`; in both cases `cycle` returns an
error (the Rust code panics), not a successor state. -/
theorem C6_stack_faults (s t : Chip8) (rnd₁ rnd₂ op₁ op₂ : Nat)
    (hop₁ : get_opcode s.memory s.reg_pc = .ok op₁)
    (h2 : op₁ / 4096 % 16 = 0x2) (hssp : s.reg_sp = 16)
    (hop₂ : get_opcode t.memory t.reg_pc = .ok op₂)
    (hEE : op₂ % 65536 = 0x00EE) (htsp : t.reg_sp = 0) :
    s.cycle rnd₁ = .error .stackOverflow ∧
    t.cycle rnd₂ = .error .stackUnderflow := by
  exact ⟨cycle_call_overflow s rnd₁ op₁ hop₁ h2 (by omega),
    cycle_ret_underflow t rnd₂ op₂ hop₂ hEE htsp⟩

/-- A machine with `call 0x238` at `0x200` and a full stack. -/
def C6stateCall : Chip8 :=
  { Chip8.new with
    memory := storeBytes Chip8.new.memory 0x200 [0x22, 0x38],
    reg_sp := 16 }

/-- A machine with `return` at `0x200` and an empty stack. -/
def C6stateRet : Chip8 :=
  { Chip8.new with memory := storeBytes Chip8.new.memory 0x200 [0x00, 0xEE] }

/-- Witness for C6 at concrete states: a full-stack call faults with
overflow, an empty-stack return with underflow. -/
theorem C6_stack_faults_witness :
    (get_opcode C6stateCall.memory C6stateCall.reg_pc = .ok 0x2238 ∧
     C6stateCall.reg_sp = 16 ∧
     get_opcode C6stateRet.memory C6stateRet.reg_pc = .ok 0x00EE ∧
     C6stateRet.reg_sp = 0) ∧
    C6stateCall.cycle 0 = .error .stackOverflow ∧
    C6stateRet.cycle 0 = .error .stackUnderflow := by
  refine ⟨⟨by decide, by decide, by decide, by decide⟩, ?_⟩
  exact C6_stack_faults C6stateCall C6stateRet 0 0 0x2238 0x00EE
    (by decide) (by decide) (by decide) (by decide) (by decide) (by decide)

/-- Branch lemma for `0x8XY5` (subtract with borrow flag). -/
theorem cycle_sub (s : Chip8) (rnd op : Nat)
    (hop : get_opcode s.memory s.reg_pc = .ok op)
    (h8 : op / 4096 % 16 = 0x8) (h5 : op % 16 = 0x5) :
    s.cycle rnd = .ok { s with
      reg_v := Function.update (Function.update s.reg_v ⟨op / 256 % 16, by omega⟩
        ((s.reg_v ⟨op / 256 % 16, by omega⟩ + 256 -
          s.reg_v ⟨op / 16 % 16, by omega⟩) % 256)) 15
        (if s.reg_v ⟨op / 256 % 16, by omega⟩ <
            s.reg_v ⟨op / 16 % 16, by omega⟩ then 1 else 0),
      reg_pc := s.reg_pc + 2 } := by
  rw [cycle_ok_fetch rnd s op hop]
  unfold execOp
  rw [if_neg (show ¬ op % 65536 = 0x00E0 by omega)]
  rw [if_neg (show ¬ op % 65536 = 0x00EE by omega)]
  rw [if_neg (show ¬ op / 4096 % 16 = 0x1 by omega)]
  rw [if_neg (show ¬ op / 4096 % 16 = 0x2 by omega)]
  rw [if_neg (show ¬ op / 4096 % 16 = 0x3 by omega)]
  rw [if_neg (show ¬ op / 4096 % 16 = 0x4 by omega)]
  rw [if_neg (show ¬ (op / 4096 % 16 = 0x5 ∧ op % 16 = 0x0) by omega)]
  rw [if_neg (show ¬ op / 4096 % 16 = 0x6 by omega)]
  rw [if_neg (show ¬ op / 4096 % 16 = 0x7 by omega)]
  rw [if_neg (show ¬ (op / 4096 % 16 = 0x8 ∧ op % 16 = 0x0) by omega)]
  rw [if_neg (show ¬ (op / 4096 % 16 = 0x8 ∧ op % 16 = 0x1) by omega)]
  rw [if_neg (show ¬ (op / 4096 % 16 = 0x8 ∧ op % 16 = 0x2) by omega)]
  rw [if_neg (show ¬ (op / 4096 % 16 = 0x8 ∧ op % 16 = 0x3) by omega)]
  rw [if_neg (show ¬ (op / 4096 % 16 = 0x8 ∧ op % 16 = 0x4) by omega)]
  rw [if_pos ⟨h8, h5⟩]


/-- C7 (amended for the register collision `X = 15`): for every state
executing `8XY5` with destination register index different from 15, the
result stored in `Vx` equals `Vx - Vy` with 8-bit wraparound semantics
(mod 256 over the integers) even when a borrow occurs, and `VF` is set to
1 exactly when a borrow occurred (`Vy > Vx`) and to 0 otherwise; when
`X = 15` the two writes collide and the final flag write to `VF` wins (see
the counterexample).  The byte hypotheses mirror the Rust `u8` typing. -/
theorem C7_sub_borrow (s : Chip8) (rnd op : Nat)
    (hop : get_opcode s.memory s.reg_pc = .ok op)
    (h8 : op / 4096 % 16 = 0x8) (h5 : op % 16 = 0x5)
    (hx15 : op / 256 % 16 ≠ 15)
    (hvx : s.reg_v ⟨op / 256 % 16, by omega⟩ < 256)
    (hvy : s.reg_v ⟨op / 16 % 16, by omega⟩ < 256) :
    ∃ s', s.cycle rnd = .ok s' ∧
      (s'.reg_v ⟨op / 256 % 16, by omega⟩ : Int) =
        ((s.reg_v ⟨op / 256 % 16, by omega⟩ : Int) -
          (s.reg_v ⟨op / 16 % 16, by omega⟩ : Int)) % 256 ∧
      s'.reg_v 15 =
        (if s.reg_v ⟨op / 256 % 16, by omega⟩ <
            s.reg_v ⟨op / 16 % 16, by omega⟩ then 1 else 0) ∧
      s'.reg_pc = s.reg_pc + 2 := by
  refine ⟨_, cycle_sub s rnd op hop h8 h5, ?_, ?_, rfl⟩
  · have hne : (⟨op / 256 % 16, by omega⟩ : Fin 16) ≠ (15 : Fin 16) :=
      Fin.ne_of_val_ne (by simpa using hx15)
    simp only [Function.update_noteq hne, Function.update_same]
    omega
  · simp only [Function.update_same]

/-- A machine at `0x8F05` (`Vx` is `VF` itself) with `VF = 100`,
`V0 = 255`. -/
def C7state : Chip8 :=
  { Chip8.new with
    memory := storeBytes Chip8.new.memory 0x200 [0x8F, 0x05],
    reg_v := Function.update (Function.update (fun _ => 0) 15 100) 0 255 }

/-- Counterexample to C7 as stated: with `X = 15` (instruction `0x8F05`,
`Vx = VF = 100`, `Vy = V0 = 255`) the claim requires the destination
register to hold the wrapped difference `(100 - 255) mod 256 = 101`, but
the code's subsequent flag write leaves `VF = 1`. -/
theorem C7_counterexample :
    C7state.reg_v 15 = 100 ∧ C7state.reg_v 0 = 255 ∧
    regOf (Chip8.cycle 0 C7state) 15 = some 1 ∧
    ¬ regOf (Chip8.cycle 0 C7state) 15 = some ((100 + 256 - 255) % 256) := by
  exact ⟨by decide, by decide, by decide, by decide⟩

/-- A machine at `0x8455` with `V4 = 100`, `V5 = 255` (the spec's
subtract-with-borrow example). -/
def C7wstate : Chip8 :=
  { Chip8.new with
    memory := storeBytes Chip8.new.memory 0x200 [0x84, 0x55],
    reg_v := Function.update (Function.update (fun _ => 0) 4 100) 5 255 }

/-- Witness for C7: `V4 = 100`, `V5 = 255`, subtract yields `V4 = 101`,
`VF = 1`. -/
theorem C7_sub_borrow_witness :
    (get_opcode C7wstate.memory C7wstate.reg_pc = .ok 0x8455 ∧
     C7wstate.reg_v ⟨4, by omega⟩ = 100 ∧ C7wstate.reg_v ⟨5, by omega⟩ = 255) ∧
    (∃ s', C7wstate.cycle 0 = .ok s' ∧
      (s'.reg_v ⟨0x8455 / 256 % 16, by omega⟩ : Int) =
        ((C7wstate.reg_v ⟨0x8455 / 256 % 16, by omega⟩ : Int) -
          (C7wstate.reg_v ⟨0x8455 / 16 % 16, by omega⟩ : Int)) % 256 ∧
      s'.reg_v 15 =
        (if C7wstate.reg_v ⟨0x8455 / 256 % 16, by omega⟩ <
            C7wstate.reg_v ⟨0x8455 / 16 % 16, by omega⟩ then 1 else 0) ∧
      s'.reg_pc = C7wstate.reg_pc + 2) ∧
    regOf (Chip8.cycle 0 C7wstate) 4 = some 101 ∧
    regOf (Chip8.cycle 0 C7wstate) 15 = some 1 := by
  refine ⟨⟨by decide, by decide, by decide⟩, ?_, by decide, by decide⟩
  exact C7_sub_borrow C7wstate 0 0x8455 (by decide) (by decide) (by decide)
    (by decide) (by decide) (by decide)

/-- Branch lemma for `0x8XY6` (shift right: `vx = vy >> 1`, `VF = vy & 1`). -/
theorem cycle_shr (s : Chip8) (rnd op : Nat)
    (hop : get_opcode s.memory s.reg_pc = .ok op)
    (h8 : op / 4096 % 16 = 0x8) (h6 : op % 16 = 0x6) :
    s.cycle rnd = .ok { s with
      reg_v := Function.update (Function.update s.reg_v ⟨op / 256 % 16, by omega⟩
        (s.reg_v ⟨op / 16 % 16, by omega⟩ / 2)) 15
        (s.reg_v ⟨op / 16 % 16, by omega⟩ % 2),
      reg_pc := s.reg_pc + 2 } := by
  rw [cycle_ok_fetch rnd s op hop]
  unfold execOp
  rw [if_neg (show ¬ op % 65536 = 0x00E0 by omega)]
  rw [if_neg (show ¬ op % 65536 = 0x00EE by omega)]
  rw [if_neg (show ¬ op / 4096 % 16 = 0x1 by omega)]
  rw [if_neg (show ¬ op / 4096 % 16 = 0x2 by omega)]
  rw [if_neg (show ¬ op / 4096 % 16 = 0x3 by omega)]
  rw [if_neg (show ¬ op / 4096 % 16 = 0x4 by omega)]
  rw [if_neg (show ¬ (op / 4096 % 16 = 0x5 ∧ op % 16 = 0x0) by omega)]
  rw [if_neg (show ¬ op / 4096 % 16 = 0x6 by omega)]
  rw [if_neg (show ¬ op / 4096 % 16 = 0x7 by omega)]
  rw [if_neg (show ¬ (op / 4096 % 16 = 0x8 ∧ op % 16 = 0x0) by omega)]
  rw [if_neg (show ¬ (op / 4096 % 16 = 0x8 ∧ op % 16 = 0x1) by omega)]
  rw [if_neg (show ¬ (op / 4096 % 16 = 0x8 ∧ op % 16 = 0x2) by omega)]
  rw [if_neg (show ¬ (op / 4096 % 16 = 0x8 ∧ op % 16 = 0x3) by omega)]
  rw [if_neg (show ¬ (op / 4096 % 16 = 0x8 ∧ op % 16 = 0x4) by omega)]
  rw [if_neg (show ¬ (op / 4096 % 16 = 0x8 ∧ op % 16 = 0x5) by omega)]
  rw [if_pos ⟨h8, h6⟩]


/-- Branch lemma for `0x8XYE` (shift left on `u8`: `vx = vy << 1`,
`VF = vy & 0b10000000`). -/
theorem cycle_shl (s : Chip8) (rnd op : Nat)
    (hop : get_opcode s.memory s.reg_pc = .ok op)
    (h8 : op / 4096 % 16 = 0x8) (hE : op % 16 = 0xE) :
    s.cycle rnd = .ok { s with
      reg_v := Function.update (Function.update s.reg_v ⟨op / 256 % 16, by omega⟩
        (s.reg_v ⟨op / 16 % 16, by omega⟩ * 2 % 256)) 15
        (s.reg_v ⟨op / 16 % 16, by omega⟩ &&& 0x80),
      reg_pc := s.reg_pc + 2 } := by
  rw [cycle_ok_fetch rnd s op hop]
  unfold execOp
  rw [if_neg (show ¬ op % 65536 = 0x00E0 by omega)]
  rw [if_neg (show ¬ op % 65536 = 0x00EE by omega)]
  rw [if_neg (show ¬ op / 4096 % 16 = 0x1 by omega)]
  rw [if_neg (show ¬ op / 4096 % 16 = 0x2 by omega)]
  rw [if_neg (show ¬ op / 4096 % 16 = 0x3 by omega)]
  rw [if_neg (show ¬ op / 4096 % 16 = 0x4 by omega)]
  rw [if_neg (show ¬ (op / 4096 % 16 = 0x5 ∧ op % 16 = 0x0) by omega)]
  rw [if_neg (show ¬ op / 4096 % 16 = 0x6 by omega)]
  rw [if_neg (show ¬ op / 4096 % 16 = 0x7 by omega)]
  rw [if_neg (show ¬ (op / 4096 % 16 = 0x8 ∧ op % 16 = 0x0) by omega)]
  rw [if_neg (show ¬ (op / 4096 % 16 = 0x8 ∧ op % 16 = 0x1) by omega)]
  rw [if_neg (show ¬ (op / 4096 % 16 = 0x8 ∧ op % 16 = 0x2) by omega)]
  rw [if_neg (show ¬ (op / 4096 % 16 = 0x8 ∧ op % 16 = 0x3) by omega)]
  rw [if_neg (show ¬ (op / 4096 % 16 = 0x8 ∧ op % 16 = 0x4) by omega)]
  rw [if_neg (show ¬ (op / 4096 % 16 = 0x8 ∧ op % 16 = 0x5) by omega)]
  rw [if_neg (show ¬ (op / 4096 % 16 = 0x8 ∧ op % 16 = 0x6) by omega)]
  rw [if_neg (show ¬ (op / 4096 % 16 = 0x8 ∧ op % 16 = 0x7) by omega)]
  rw [if_pos ⟨h8, hE⟩]


/-- C8 (amended for the register collisions with `VF`): for `8XY6`, `Vx` is
set to `Vy >> 1` (from the other operand register, not self-referential)
provided `X ≠ 15`, and `VF` receives the original low bit of `Vy`
unconditionally; for `8XYE`, `Vx` is set to `Vy << 1` truncated mod 256
provided `X ≠ 15`, and `VF` receives the raw masked high bit `Vy & 0x80`
(0 or 128, not normalized); `Vy` itself is unchanged when `X ≠ Y` and
additionally `Y ≠ 15` — when `Vx` or `Vy` is `VF` itself, the final flag
write to `VF` wins (see the counterexample). -/
theorem C8_shifts (s t : Chip8) (rnds rndt ops opt : Nat)
    (hops : get_opcode s.memory s.reg_pc = .ok ops)
    (h8s : ops / 4096 % 16 = 0x8) (h6 : ops % 16 = 0x6)
    (hopt : get_opcode t.memory t.reg_pc = .ok opt)
    (h8t : opt / 4096 % 16 = 0x8) (hE : opt % 16 = 0xE) :
    (∃ s', s.cycle rnds = .ok s' ∧
      (ops / 256 % 16 ≠ 15 →
        s'.reg_v ⟨ops / 256 % 16, by omega⟩ =
          s.reg_v ⟨ops / 16 % 16, by omega⟩ / 2) ∧
      s'.reg_v 15 = s.reg_v ⟨ops / 16 % 16, by omega⟩ % 2 ∧
      (ops / 256 % 16 ≠ ops / 16 % 16 → ops / 16 % 16 ≠ 15 →
        s'.reg_v ⟨ops / 16 % 16, by omega⟩ =
          s.reg_v ⟨ops / 16 % 16, by omega⟩)) ∧
    (∃ t', t.cycle rndt = .ok t' ∧
      (opt / 256 % 16 ≠ 15 →
        t'.reg_v ⟨opt / 256 % 16, by omega⟩ =
          t.reg_v ⟨opt / 16 % 16, by omega⟩ * 2 % 256) ∧
      t'.reg_v 15 = t.reg_v ⟨opt / 16 % 16, by omega⟩ &&& 0x80 ∧
      (opt / 256 % 16 ≠ opt / 16 % 16 → opt / 16 % 16 ≠ 15 →
        t'.reg_v ⟨opt / 16 % 16, by omega⟩ =
          t.reg_v ⟨opt / 16 % 16, by omega⟩)) := by
  constructor
  · refine ⟨_, cycle_shr s rnds ops hops h8s h6, ?_, ?_, ?_⟩
    · intro hx15
      have hne : (⟨ops / 256 % 16, by omega⟩ : Fin 16) ≠ (15 : Fin 16) :=
        Fin.ne_of_val_ne (by simpa using hx15)
      simp only [Function.update_noteq hne, Function.update_same]
    · simp only [Function.update_same]
    · intro hxy hy15
      have hne15 : (⟨ops / 16 % 16, by omega⟩ : Fin 16) ≠ (15 : Fin 16) :=
        Fin.ne_of_val_ne (by simpa using hy15)
      have hnex : (⟨ops / 16 % 16, by omega⟩ : Fin 16) ≠
          (⟨ops / 256 % 16, by omega⟩ : Fin 16) :=
        Fin.ne_of_val_ne (by simpa using fun h => hxy h.symm)
      simp only [Function.update_noteq hne15, Function.update_noteq hnex]
  · refine ⟨_, cycle_shl t rndt opt hopt h8t hE, ?_, ?_, ?_⟩
    · intro hx15
      have hne : (⟨opt / 256 % 16, by omega⟩ : Fin 16) ≠ (15 : Fin 16) :=
        Fin.ne_of_val_ne (by simpa using hx15)
      simp only [Function.update_noteq hne, Function.update_same]
    · simp only [Function.update_same]
    · intro hxy hy15
      have hne15 : (⟨opt / 16 % 16, by omega⟩ : Fin 16) ≠ (15 : Fin 16) :=
        Fin.ne_of_val_ne (by simpa using hy15)
      have hnex : (⟨opt / 16 % 16, by omega⟩ : Fin 16) ≠
          (⟨opt / 256 % 16, by omega⟩ : Fin 16) :=
        Fin.ne_of_val_ne (by simpa using fun h => hxy h.symm)
      simp only [Function.update_noteq hne15, Function.update_noteq hnex]

/-- A machine at `0x84F6` (shift right with `Y = 15`) and `VF = 2`. -/
def C8state : Chip8 :=
  { Chip8.new with
    memory := storeBytes Chip8.new.memory 0x200 [0x84, 0xF6],
    reg_v := Function.update (fun _ => 0) 15 2 }

/-- Counterexample to C8 as stated: for `0x84F6` we have `X = 4 ≠ Y = 15`,
so the claim requires `Vy` (= `VF`) to be unchanged (2), but the code's
flag write sets `VF = Vy & 1 = 0`. -/
theorem C8_counterexample :
    C8state.reg_v 15 = 2 ∧ 0x84F6 / 256 % 16 ≠ 0x84F6 / 16 % 16 ∧
    regOf (Chip8.cycle 0 C8state) 15 = some 0 ∧
    ¬ regOf (Chip8.cycle 0 C8state) 15 = some 2 := by
  exact ⟨by decide, by decide, by decide, by decide⟩

/-- A machine at `0x8456` (shift right) with `V5 = 0b10011111`. -/
def C8wstate6 : Chip8 :=
  { Chip8.new with
    memory := storeBytes Chip8.new.memory 0x200 [0x84, 0x56],
    reg_v := Function.update (fun _ => 0) 5 0b10011111 }

/-- A machine at `0x845E` (shift left) with `V5 = 0b10011111`. -/
def C8wstateE : Chip8 :=
  { Chip8.new with
    memory := storeBytes Chip8.new.memory 0x200 [0x84, 0x5E],
    reg_v := Function.update (fun _ => 0) 5 0b10011111 }

/-- Witness for C8 at the repository tests' concrete inputs: shifting
`V5 = 0b10011111` right into `V4` yields `V4 = 0b01001111`, `VF = 1`,
`V5` unchanged; shifting it left yields `V4 = 0b00111110`,
`VF = 0b10000000`, `V5` unchanged. -/
theorem C8_shifts_witness :
    (get_opcode C8wstate6.memory C8wstate6.reg_pc = .ok 0x8456 ∧
     get_opcode C8wstateE.memory C8wstateE.reg_pc = .ok 0x845E) ∧
    ((∃ s', C8wstate6.cycle 0 = .ok s' ∧
      (0x8456 / 256 % 16 ≠ 15 →
        s'.reg_v ⟨0x8456 / 256 % 16, by omega⟩ =
          C8wstate6.reg_v ⟨0x8456 / 16 % 16, by omega⟩ / 2) ∧
      s'.reg_v 15 = C8wstate6.reg_v ⟨0x8456 / 16 % 16, by omega⟩ % 2 ∧
      (0x8456 / 256 % 16 ≠ 0x8456 / 16 % 16 → 0x8456 / 16 % 16 ≠ 15 →
        s'.reg_v ⟨0x8456 / 16 % 16, by omega⟩ =
          C8wstate6.reg_v ⟨0x8456 / 16 % 16, by omega⟩)) ∧
    (∃ t', C8wstateE.cycle 0 = .ok t' ∧
      (0x845E / 256 % 16 ≠ 15 →
        t'.reg_v ⟨0x845E / 256 % 16, by omega⟩ =
          C8wstateE.reg_v ⟨0x845E / 16 % 16, by omega⟩ * 2 % 256) ∧
      t'.reg_v 15 = C8wstateE.reg_v ⟨0x845E / 16 % 16, by omega⟩ &&& 0x80 ∧
      (0x845E / 256 % 16 ≠ 0x845E / 16 % 16 → 0x845E / 16 % 16 ≠ 15 →
        t'.reg_v ⟨0x845E / 16 % 16, by omega⟩ =
          C8wstateE.reg_v ⟨0x845E / 16 % 16, by omega⟩))) ∧
    regOf (Chip8.cycle 0 C8wstate6) 4 = some 0b01001111 ∧
    regOf (Chip8.cycle 0 C8wstate6) 15 = some 1 ∧
    regOf (Chip8.cycle 0 C8wstateE) 4 = some 0b00111110 ∧
    regOf (Chip8.cycle 0 C8wstateE) 15 = some 0b10000000 := by
  refine ⟨⟨by decide, by decide⟩, ?_, by decide, by decide, by decide, by decide⟩
  exact C8_shifts C8wstate6 C8wstateE 0 0 0x8456 0x845E
    (by decide) (by decide) (by decide) (by decide) (by decide) (by decide)

/-- Branch lemma for `0xFX33` (BCD expansion) with `reg_i + 2` in range. -/
theorem cycle_bcd (s : Chip8) (rnd op : Nat)
    (hop : get_opcode s.memory s.reg_pc = .ok op)
    (hF : op / 4096 % 16 = 0xF) (h33 : op % 256 = 0x33)
    (hI : s.reg_i + 2 < 4096) :
    s.cycle rnd = .ok { s with
      memory := Function.update (Function.update (Function.update s.memory
        ⟨s.reg_i, by omega⟩ (s.reg_v ⟨op / 256 % 16, by omega⟩ / 100))
        ⟨s.reg_i + 1, by omega⟩ (s.reg_v ⟨op / 256 % 16, by omega⟩ / 10 % 10))
        ⟨s.reg_i + 2, hI⟩ (s.reg_v ⟨op / 256 % 16, by omega⟩ % 10),
      reg_pc := s.reg_pc + 2 } := by
  rw [cycle_ok_fetch rnd s op hop]
  unfold execOp
  rw [if_neg (show ¬ op % 65536 = 0x00E0 by omega)]
  rw [if_neg (show ¬ op % 65536 = 0x00EE by omega)]
  rw [if_neg (show ¬ op / 4096 % 16 = 0x1 by omega)]
  rw [if_neg (show ¬ op / 4096 % 16 = 0x2 by omega)]
  rw [if_neg (show ¬ op / 4096 % 16 = 0x3 by omega)]
  rw [if_neg (show ¬ op / 4096 % 16 = 0x4 by omega)]
  rw [if_neg (show ¬ (op / 4096 % 16 = 0x5 ∧ op % 16 = 0x0) by omega)]
  rw [if_neg (show ¬ op / 4096 % 16 = 0x6 by omega)]
  rw [if_neg (show ¬ op / 4096 % 16 = 0x7 by omega)]
  rw [if_neg (show ¬ (op / 4096 % 16 = 0x8 ∧ op % 16 = 0x0) by omega)]
  rw [if_neg (show ¬ (op / 4096 % 16 = 0x8 ∧ op % 16 = 0x1) by omega)]
  rw [if_neg (show ¬ (op / 4096 % 16 = 0x8 ∧ op % 16 = 0x2) by omega)]
  rw [if_neg (show ¬ (op / 4096 % 16 = 0x8 ∧ op % 16 = 0x3) by omega)]
  rw [if_neg (show ¬ (op / 4096 % 16 = 0x8 ∧ op % 16 = 0x4) by omega)]
  rw [if_neg (show ¬ (op / 4096 % 16 = 0x8 ∧ op % 16 = 0x5) by omega)]
  rw [if_neg (show ¬ (op / 4096 % 16 = 0x8 ∧ op % 16 = 0x6) by omega)]
  rw [if_neg (show ¬ (op / 4096 % 16 = 0x8 ∧ op % 16 = 0x7) by omega)]
  rw [if_neg (show ¬ (op / 4096 % 16 = 0x8 ∧ op % 16 = 0xE) by omega)]
  rw [if_neg (show ¬ (op / 4096 % 16 = 0x9 ∧ op % 16 = 0x0) by omega)]
  rw [if_neg (show ¬ op / 4096 % 16 = 0xA by omega)]
  rw [if_neg (show ¬ op / 4096 % 16 = 0xB by omega)]
  rw [if_neg (show ¬ op / 4096 % 16 = 0xC by omega)]
  rw [if_neg (show ¬ op / 4096 % 16 = 0xD by omega)]
  rw [if_neg (show ¬ (op / 4096 % 16 = 0xE ∧ op % 256 = 0x9E) by omega)]
  rw [if_neg (show ¬ (op / 4096 % 16 = 0xE ∧ op % 256 = 0xA1) by omega)]
  rw [if_neg (show ¬ (op / 4096 % 16 = 0xF ∧ op % 256 = 0x07) by omega)]
  rw [if_neg (show ¬ (op / 4096 % 16 = 0xF ∧ op % 256 = 0x0A) by omega)]
  rw [if_neg (show ¬ (op / 4096 % 16 = 0xF ∧ op % 256 = 0x15) by omega)]
  rw [if_neg (show ¬ (op / 4096 % 16 = 0xF ∧ op % 256 = 0x18) by omega)]
  rw [if_neg (show ¬ (op / 4096 % 16 = 0xF ∧ op % 256 = 0x1E) by omega)]
  rw [if_neg (show ¬ (op / 4096 % 16 = 0xF ∧ op % 256 = 0x29) by omega)]
  rw [if_pos ⟨hF, h33⟩, dif_pos hI]


/-- C10: `FX33` writes the hundreds, tens and ones decimal digits of the
byte `Vx` (for a `u8` value, `v / 100`, `v / 10 % 10`, `v % 10`) to memory
addresses `I`, `I + 1` and `I + 2`, and leaves the index register `I` and
all sixteen general registers (including `Vx` and `VF`) unchanged — in
particular, unlike the bulk transfers `FX55`/`FX65` (whose loop executes
`reg_i += 1` per byte), it does not advance `I`. -/
theorem C10_bcd (s : Chip8) (rnd op : Nat)
    (hop : get_opcode s.memory s.reg_pc = .ok op)
    (hF : op / 4096 % 16 = 0xF) (h33 : op % 256 = 0x33)
    (hI : s.reg_i + 2 < 4096)
    (hv : s.reg_v ⟨op / 256 % 16, by omega⟩ < 256) :
    ∃ s', s.cycle rnd = .ok s' ∧
      memAt s'.memory s.reg_i = s.reg_v ⟨op / 256 % 16, by omega⟩ / 100 ∧
      memAt s'.memory (s.reg_i + 1) =
        s.reg_v ⟨op / 256 % 16, by omega⟩ / 10 % 10 ∧
      memAt s'.memory (s.reg_i + 2) = s.reg_v ⟨op / 256 % 16, by omega⟩ % 10 ∧
      s'.reg_i = s.reg_i ∧ s'.reg_v = s.reg_v ∧ s'.reg_pc = s.reg_pc + 2 := by
  refine ⟨_, cycle_bcd s rnd op hop hF h33 hI, ?_, ?_, ?_, rfl, rfl, rfl⟩
  · simp only [memAt]
    rw [dif_pos (show s.reg_i < 4096 by omega),
      Function.update_noteq (Fin.ne_of_val_ne
        (show s.reg_i ≠ s.reg_i + 2 by omega)),
      Function.update_noteq (Fin.ne_of_val_ne
        (show s.reg_i ≠ s.reg_i + 1 by omega)),
      Function.update_same]
  · simp only [memAt]
    rw [dif_pos (show s.reg_i + 1 < 4096 by omega),
      Function.update_noteq (Fin.ne_of_val_ne
        (show s.reg_i + 1 ≠ s.reg_i + 2 by omega)),
      Function.update_same]
  · simp only [memAt]
    rw [dif_pos hI, Function.update_same]

/-- A machine at `0xF433` with `V4 = 245` and `I = 0x2F5` (the repository
test's inputs). -/
def C10state : Chip8 :=
  { Chip8.new with
    memory := storeBytes Chip8.new.memory 0x200 [0xF4, 0x33],
    reg_v := Function.update (fun _ => 0) 4 245,
    reg_i := 0x2F5 }

/-- Witness for C10: BCD of `V4 = 245` at `I = 0x2F5` writes 2, 4, 5 and
leaves `I` and the registers unchanged. -/
theorem C10_bcd_witness :
    (get_opcode C10state.memory C10state.reg_pc = .ok 0xF433 ∧
     C10state.reg_i + 2 < 4096 ∧
     C10state.reg_v ⟨0xF433 / 256 % 16, by omega⟩ < 256) ∧
    (∃ s', C10state.cycle 0 = .ok s' ∧
      memAt s'.memory C10state.reg_i =
        C10state.reg_v ⟨0xF433 / 256 % 16, by omega⟩ / 100 ∧
      memAt s'.memory (C10state.reg_i + 1) =
        C10state.reg_v ⟨0xF433 / 256 % 16, by omega⟩ / 10 % 10 ∧
      memAt s'.memory (C10state.reg_i + 2) =
        C10state.reg_v ⟨0xF433 / 256 % 16, by omega⟩ % 10 ∧
      s'.reg_i = C10state.reg_i ∧ s'.reg_v = C10state.reg_v ∧
      s'.reg_pc = C10state.reg_pc + 2) := by
  refine ⟨⟨by decide, by decide, by decide⟩, ?_⟩
  exact C10_bcd C10state 0 0xF433 (by decide) (by decide) (by decide)
    (by decide) (by decide)

/-- C9: for every machine state whose stack pointer lies in [0, 16] and
whose fetch yields opcode `op`, if one `cycle` completes without faulting
then the resulting stack pointer again lies in [0, 16]; the return
instruction (`op & 0xFFFF == 0x00EE`) is the only one that decreases it
(by 1, and only from a non-zero pointer), the call instruction (top nibble
2, when not the return opcode) is the only one that increases it (by 1,
guarded by `sp < 16`), and every other instruction leaves it unchanged. -/
theorem C9_sp_invariant (s : Chip8) (rnd op : Nat)
    (hop : get_opcode s.memory s.reg_pc = .ok op)
    (hsp : s.reg_sp ≤ 16) :
    ∀ s', s.cycle rnd = .ok s' →
      s'.reg_sp ≤ 16 ∧
      (op % 65536 = 0x00EE → ¬ s.reg_sp = 0 ∧ s'.reg_sp = s.reg_sp - 1) ∧
      (¬ op % 65536 = 0x00EE → op / 4096 % 16 = 0x2 →
        s.reg_sp < 16 ∧ s'.reg_sp = s.reg_sp + 1) ∧
      (¬ op % 65536 = 0x00EE → ¬ op / 4096 % 16 = 0x2 →
        s'.reg_sp = s.reg_sp) := by
  intro s' h
  rw [cycle_ok_fetch rnd s op hop] at h
  unfold execOp at h
  by_cases c1 : op % 65536 = 0x00E0
  · rw [if_pos c1] at h; injection h with h'; subst h'
    exact ⟨hsp, fun hEE => by omega, fun _ h2 => by omega, fun _ _ => rfl⟩
  rw [if_neg c1] at h
  by_cases c2 : op % 65536 = 0x00EE
  · rw [if_pos c2] at h
    by_cases c2a : s.reg_sp = 0
    · rw [if_pos c2a] at h; exact Except.noConfusion h
    rw [if_neg c2a, dif_pos (show s.reg_sp - 1 < 16 by omega)] at h
    injection h with h'; subst h'
    exact ⟨show s.reg_sp - 1 ≤ 16 by omega, fun hEE => ⟨c2a, rfl⟩,
      fun hnEE _ => absurd c2 hnEE, fun hnEE _ => absurd c2 hnEE⟩
  rw [if_neg c2] at h
  by_cases c3 : op / 4096 % 16 = 0x1
  · rw [if_pos c3] at h; injection h with h'; subst h'
    exact ⟨hsp, fun hEE => absurd hEE c2, fun _ h2 => by omega, fun _ _ => rfl⟩
  rw [if_neg c3] at h
  by_cases c4 : op / 4096 % 16 = 0x2
  · rw [if_pos c4] at h
    by_cases c4a : s.reg_sp < 16
    · rw [dif_pos c4a] at h; injection h with h'; subst h'
      exact ⟨show s.reg_sp + 1 ≤ 16 by omega, fun hEE => absurd hEE c2,
        fun _ _ => ⟨c4a, rfl⟩, fun _ hn2 => absurd c4 hn2⟩
    rw [dif_neg c4a] at h; exact Except.noConfusion h
  rw [if_neg c4] at h
  by_cases c5 : op / 4096 % 16 = 0x3
  · rw [if_pos c5] at h; injection h with h'; subst h'
    exact ⟨hsp, fun hEE => absurd hEE c2, fun _ h2 => absurd h2 c4, fun _ _ => rfl⟩
  rw [if_neg c5] at h
  by_cases c6 : op / 4096 % 16 = 0x4
  · rw [if_pos c6] at h; injection h with h'; subst h'
    exact ⟨hsp, fun hEE => absurd hEE c2, fun _ h2 => absurd h2 c4, fun _ _ => rfl⟩
  rw [if_neg c6] at h
  by_cases c7 : op / 4096 % 16 = 0x5 ∧ op % 16 = 0x0
  · rw [if_pos c7] at h; injection h with h'; subst h'
    exact ⟨hsp, fun hEE => absurd hEE c2, fun _ h2 => absurd h2 c4, fun _ _ => rfl⟩
  rw [if_neg c7] at h
  by_cases c8 : op / 4096 % 16 = 0x6
  · rw [if_pos c8] at h; injection h with h'; subst h'
    exact ⟨hsp, fun hEE => absurd hEE c2, fun _ h2 => absurd h2 c4, fun _ _ => rfl⟩
  rw [if_neg c8] at h
  by_cases c9 : op / 4096 % 16 = 0x7
  · rw [if_pos c9] at h; injection h with h'; subst h'
    exact ⟨hsp, fun hEE => absurd hEE c2, fun _ h2 => absurd h2 c4, fun _ _ => rfl⟩
  rw [if_neg c9] at h
  by_cases c10 : op / 4096 % 16 = 0x8 ∧ op % 16 = 0x0
  · rw [if_pos c10] at h; injection h with h'; subst h'
    exact ⟨hsp, fun hEE => absurd hEE c2, fun _ h2 => absurd h2 c4, fun _ _ => rfl⟩
  rw [if_neg c10] at h
  by_cases c11 : op / 4096 % 16 = 0x8 ∧ op % 16 = 0x1
  · rw [if_pos c11] at h; injection h with h'; subst h'
    exact ⟨hsp, fun hEE => absurd hEE c2, fun _ h2 => absurd h2 c4, fun _ _ => rfl⟩
  rw [if_neg c11] at h
  by_cases c12 : op / 4096 % 16 = 0x8 ∧ op % 16 = 0x2
  · rw [if_pos c12] at h; injection h with h'; subst h'
    exact ⟨hsp, fun hEE => absurd hEE c2, fun _ h2 => absurd h2 c4, fun _ _ => rfl⟩
  rw [if_neg c12] at h
  by_cases c13 : op / 4096 % 16 = 0x8 ∧ op % 16 = 0x3
  · rw [if_pos c13] at h; injection h with h'; subst h'
    exact ⟨hsp, fun hEE => absurd hEE c2, fun _ h2 => absurd h2 c4, fun _ _ => rfl⟩
  rw [if_neg c13] at h
  by_cases c14 : op / 4096 % 16 = 0x8 ∧ op % 16 = 0x4
  · rw [if_pos c14] at h; injection h with h'; subst h'
    exact ⟨hsp, fun hEE => absurd hEE c2, fun _ h2 => absurd h2 c4, fun _ _ => rfl⟩
  rw [if_neg c14] at h
  by_cases c15 : op / 4096 % 16 = 0x8 ∧ op % 16 = 0x5
  · rw [if_pos c15] at h; injection h with h'; subst h'
    exact ⟨hsp, fun hEE => absurd hEE c2, fun _ h2 => absurd h2 c4, fun _ _ => rfl⟩
  rw [if_neg c15] at h
  by_cases c16 : op / 4096 % 16 = 0x8 ∧ op % 16 = 0x6
  · rw [if_pos c16] at h; injection h with h'; subst h'
    exact ⟨hsp, fun hEE => absurd hEE c2, fun _ h2 => absurd h2 c4, fun _ _ => rfl⟩
  rw [if_neg c16] at h
  by_cases c17 : op / 4096 % 16 = 0x8 ∧ op % 16 = 0x7
  · rw [if_pos c17] at h; injection h with h'; subst h'
    exact ⟨hsp, fun hEE => absurd hEE c2, fun _ h2 => absurd h2 c4, fun _ _ => rfl⟩
  rw [if_neg c17] at h
  by_cases c18 : op / 4096 % 16 = 0x8 ∧ op % 16 = 0xE
  · rw [if_pos c18] at h; injection h with h'; subst h'
    exact ⟨hsp, fun hEE => absurd hEE c2, fun _ h2 => absurd h2 c4, fun _ _ => rfl⟩
  rw [if_neg c18] at h
  by_cases c19 : op / 4096 % 16 = 0x9 ∧ op % 16 = 0x0
  · rw [if_pos c19] at h; injection h with h'; subst h'
    exact ⟨hsp, fun hEE => absurd hEE c2, fun _ h2 => absurd h2 c4, fun _ _ => rfl⟩
  rw [if_neg c19] at h
  by_cases c20 : op / 4096 % 16 = 0xA
  · rw [if_pos c20] at h; injection h with h'; subst h'
    exact ⟨hsp, fun hEE => absurd hEE c2, fun _ h2 => absurd h2 c4, fun _ _ => rfl⟩
  rw [if_neg c20] at h
  by_cases c21 : op / 4096 % 16 = 0xB
  · rw [if_pos c21] at h; injection h with h'; subst h'
    exact ⟨hsp, fun hEE => absurd hEE c2, fun _ h2 => absurd h2 c4, fun _ _ => rfl⟩
  rw [if_neg c21] at h
  by_cases c22 : op / 4096 % 16 = 0xC
  · rw [if_pos c22] at h; injection h with h'; subst h'
    exact ⟨hsp, fun hEE => absurd hEE c2, fun _ h2 => absurd h2 c4, fun _ _ => rfl⟩
  rw [if_neg c22] at h
  by_cases c23 : op / 4096 % 16 = 0xD
  · rw [if_pos c23] at h
    split at h
    · exact Except.noConfusion h
    · injection h with h'; subst h'
      exact ⟨hsp, fun hEE => absurd hEE c2, fun _ h2 => absurd h2 c4, fun _ _ => rfl⟩
  rw [if_neg c23] at h
  by_cases c24 : op / 4096 % 16 = 0xE ∧ op % 256 = 0x9E
  · rw [if_pos c24] at h
    split at h
    · injection h with h'; subst h'
      exact ⟨hsp, fun hEE => absurd hEE c2, fun _ h2 => absurd h2 c4, fun _ _ => rfl⟩
    · exact Except.noConfusion h
  rw [if_neg c24] at h
  by_cases c25 : op / 4096 % 16 = 0xE ∧ op % 256 = 0xA1
  · rw [if_pos c25] at h
    split at h
    · injection h with h'; subst h'
      exact ⟨hsp, fun hEE => absurd hEE c2, fun _ h2 => absurd h2 c4, fun _ _ => rfl⟩
    · exact Except.noConfusion h
  rw [if_neg c25] at h
  by_cases c26 : op / 4096 % 16 = 0xF ∧ op % 256 = 0x07
  · rw [if_pos c26] at h; injection h with h'; subst h'
    exact ⟨hsp, fun hEE => absurd hEE c2, fun _ h2 => absurd h2 c4, fun _ _ => rfl⟩
  rw [if_neg c26] at h
  by_cases c27 : op / 4096 % 16 = 0xF ∧ op % 256 = 0x0A
  · rw [if_pos c27] at h; exact Except.noConfusion h
  rw [if_neg c27] at h
  by_cases c28 : op / 4096 % 16 = 0xF ∧ op % 256 = 0x15
  · rw [if_pos c28] at h; injection h with h'; subst h'
    exact ⟨hsp, fun hEE => absurd hEE c2, fun _ h2 => absurd h2 c4, fun _ _ => rfl⟩
  rw [if_neg c28] at h
  by_cases c29 : op / 4096 % 16 = 0xF ∧ op % 256 = 0x18
  · rw [if_pos c29] at h; injection h with h'; subst h'
    exact ⟨hsp, fun hEE => absurd hEE c2, fun _ h2 => absurd h2 c4, fun _ _ => rfl⟩
  rw [if_neg c29] at h
  by_cases c30 : op / 4096 % 16 = 0xF ∧ op % 256 = 0x1E
  · rw [if_pos c30] at h; injection h with h'; subst h'
    exact ⟨hsp, fun hEE => absurd hEE c2, fun _ h2 => absurd h2 c4, fun _ _ => rfl⟩
  rw [if_neg c30] at h
  by_cases c31 : op / 4096 % 16 = 0xF ∧ op % 256 = 0x29
  · rw [if_pos c31] at h
    split at h
    · exact Except.noConfusion h
    · injection h with h'; subst h'
      exact ⟨hsp, fun hEE => absurd hEE c2, fun _ h2 => absurd h2 c4, fun _ _ => rfl⟩
  rw [if_neg c31] at h
  by_cases c32 : op / 4096 % 16 = 0xF ∧ op % 256 = 0x33
  · rw [if_pos c32] at h
    split at h
    · injection h with h'; subst h'
      exact ⟨hsp, fun hEE => absurd hEE c2, fun _ h2 => absurd h2 c4, fun _ _ => rfl⟩
    · exact Except.noConfusion h
  rw [if_neg c32] at h
  by_cases c33 : op / 4096 % 16 = 0xF ∧ op % 256 = 0x55
  · rw [if_pos c33] at h
    split at h
    · exact Except.noConfusion h
    · injection h with h'; subst h'
      exact ⟨hsp, fun hEE => absurd hEE c2, fun _ h2 => absurd h2 c4, fun _ _ => rfl⟩
  rw [if_neg c33] at h
  by_cases c34 : op / 4096 % 16 = 0xF ∧ op % 256 = 0x65
  · rw [if_pos c34] at h
    split at h
    · exact Except.noConfusion h
    · injection h with h'; subst h'
      exact ⟨hsp, fun hEE => absurd hEE c2, fun _ h2 => absurd h2 c4, fun _ _ => rfl⟩
  rw [if_neg c34] at h
  exact Except.noConfusion h

/-- A machine at `0x6407` (`V4 := 7`), a non-call, non-return instruction. -/
def C9state : Chip8 :=
  { Chip8.new with memory := storeBytes Chip8.new.memory 0x200 [0x64, 0x07] }

/-- Witness for C9 at a concrete state: the invariant instantiated at a
fresh machine executing `0x6407`. -/
theorem C9_sp_invariant_witness :
    (get_opcode C9state.memory C9state.reg_pc = .ok 0x6407 ∧
     C9state.reg_sp ≤ 16) ∧
    (∀ s', C9state.cycle 0 = .ok s' →
      s'.reg_sp ≤ 16 ∧
      (0x6407 % 65536 = 0x00EE → ¬ C9state.reg_sp = 0 ∧
        s'.reg_sp = C9state.reg_sp - 1) ∧
      (¬ 0x6407 % 65536 = 0x00EE → 0x6407 / 4096 % 16 = 0x2 →
        C9state.reg_sp < 16 ∧ s'.reg_sp = C9state.reg_sp + 1) ∧
      (¬ 0x6407 % 65536 = 0x00EE → ¬ 0x6407 / 4096 % 16 = 0x2 →
        s'.reg_sp = C9state.reg_sp)) := by
  refine ⟨⟨by decide, by decide⟩, ?_⟩
  exact C9_sp_invariant C9state 0 0x6407 (by decide) (by decide)

theorem anyCongr {α : Type} (l : List α) (f g : α → Bool)
    (h : ∀ a ∈ l, f a = g a) : l.any f = l.any g := by
  induction l with
  | nil => rfl
  | cons a l ih =>
      rw [List.any_cons, List.any_cons, h a (by simp),
        ih (fun b hb => h b (by simp [hb]))]

theorem mem_pixelPairs (n : Nat) (p : Nat × Nat) :
    p ∈ pixelPairs n ↔ p.1 < n ∧ p.2 < 8 := by
  constructor
  · intro hp
    obtain ⟨r, hr, hp2⟩ := List.mem_flatMap.mp hp
    obtain ⟨c, hc, rfl⟩ := List.mem_map.mp hp2
    exact ⟨List.mem_range.mp hr, List.mem_range.mp hc⟩
  · intro hp
    refine List.mem_flatMap.mpr ⟨p.1, List.mem_range.mpr hp.1,
      List.mem_map.mpr ⟨p.2, List.mem_range.mpr hp.2, rfl⟩⟩

theorem pixelPairs_pairwise (x y n : Nat) :
    (pixelPairs n).Pairwise (fun p q =>
      DISPLAY_WIDTH * (y + p.1) + x + p.2 ≠
        DISPLAY_WIDTH * (y + q.1) + x + q.2) := by
  induction n with
  | zero => exact List.Pairwise.nil
  | succ n ih =>
      have hsplit : pixelPairs (n + 1) =
          pixelPairs n ++ (List.range 8).map (fun col => (n, col)) := by
        unfold pixelPairs
        rw [List.range_succ, List.flatMap_append]
        simp
      rw [hsplit]
      refine List.pairwise_append.mpr ⟨ih, ?_, ?_⟩
      · rw [List.pairwise_map]
        refine (List.pairwise_lt_range 8).imp ?_
        intro a b hab
        simp only [DISPLAY_WIDTH]
        omega
      · intro p hp q hq
        obtain ⟨h1, h2⟩ := (mem_pixelPairs n p).mp hp
        obtain ⟨c, hc, rfl⟩ := List.mem_map.mp hq
        have hc8 := List.mem_range.mp hc
        simp only [DISPLAY_WIDTH]
        omega

/-- Characterization of the `0xDXYN` pixel loop on a list of pairwise
index-distinct, in-bounds `(row, col)` pairs: the loop succeeds; every
visited pixel ends up holding its sprite bit (the bit overwrites the
pixel); every other pixel is unchanged; and the final collision flag is 1
exactly when some visited pixel was set while its sprite bit is unset,
else the initial flag value. -/
theorem drawLoop_ok (mem : Fin 4096 → Nat) (I x y : Nat) :
    ∀ (ps : List (Nat × Nat)) (d : Fin (64 * 32) → Bool) (v : Nat),
      (∀ p ∈ ps, I + p.1 < 4096 ∧
        DISPLAY_WIDTH * (y + p.1) + x + p.2 < 64 * 32) →
      ps.Pairwise (fun p q => DISPLAY_WIDTH * (y + p.1) + x + p.2 ≠
        DISPLAY_WIDTH * (y + q.1) + x + q.2) →
      ∃ d' v', drawLoop mem I x y ps (d, v) = .ok (d', v') ∧
        (∀ j : Fin (64 * 32),
          (∀ p ∈ ps, DISPLAY_WIDTH * (y + p.1) + x + p.2 ≠ j.val) →
          d' j = d j) ∧
        (∀ p ∈ ps, dispAt d' (DISPLAY_WIDTH * (y + p.1) + x + p.2) =
          ((memAt mem (I + p.1) &&& 2 ^ (7 - p.2)) != 0)) ∧
        v' = (if ps.any (fun q =>
            dispAt d (DISPLAY_WIDTH * (y + q.1) + x + q.2) &&
            !((memAt mem (I + q.1) &&& 2 ^ (7 - q.2)) != 0)) = true
          then 1 else v) := by
  intro ps
  induction ps with
  | nil =>
      intro d v _ _
      exact ⟨d, v, rfl, fun j _ => rfl, fun p hp => absurd hp (by simp), by simp⟩
  | cons p ps ih =>
      intro d v hb hpw
      obtain ⟨hm, hd⟩ := hb p (List.mem_cons_self p ps)
      obtain ⟨hhead, htail⟩ := List.pairwise_cons.mp hpw
      have hdp : drawPixel mem I x y p (d, v) = .ok
          (Function.update d ⟨DISPLAY_WIDTH * (y + p.1) + x + p.2, hd⟩
            ((mem ⟨I + p.1, hm⟩ &&& 2 ^ (7 - p.2)) != 0),
           if d ⟨DISPLAY_WIDTH * (y + p.1) + x + p.2, hd⟩ &&
               !((mem ⟨I + p.1, hm⟩ &&& 2 ^ (7 - p.2)) != 0) then 1 else v) := by
        simp only [drawPixel, dif_pos hm, dif_pos hd]
      obtain ⟨d', v', heq, hunt, hcov, hvf⟩ :=
        ih (Function.update d ⟨DISPLAY_WIDTH * (y + p.1) + x + p.2, hd⟩
            ((mem ⟨I + p.1, hm⟩ &&& 2 ^ (7 - p.2)) != 0))
          (if d ⟨DISPLAY_WIDTH * (y + p.1) + x + p.2, hd⟩ &&
              !((mem ⟨I + p.1, hm⟩ &&& 2 ^ (7 - p.2)) != 0) then 1 else v)
          (fun q hq => hb q (List.mem_cons_of_mem _ hq)) htail
      refine ⟨d', v', ?_, ?_, ?_, ?_⟩
      · simp only [drawLoop, hdp]
        exact heq
      · intro j hj
        rw [hunt j (fun q hq => hj q (List.mem_cons_of_mem _ hq)),
          Function.update_noteq (Fin.ne_of_val_ne
            (fun hh => hj p (List.mem_cons_self p ps) hh.symm))]
      · intro q hq
        rcases List.mem_cons.mp hq with rfl | hq'
        · have hx : ∀ r ∈ ps, DISPLAY_WIDTH * (y + r.1) + x + r.2 ≠
              (⟨DISPLAY_WIDTH * (y + q.1) + x + q.2, hd⟩ : Fin (64 * 32)).val :=
            fun r hr hh => hhead r hr hh.symm
          simp only [dispAt]
          rw [dif_pos hd, hunt _ hx, Function.update_same]
          simp only [memAt]
          rw [dif_pos hm]
        · exact hcov q hq'
      · rw [hvf]
        have hfq : ∀ q ∈ ps,
            (dispAt (Function.update d ⟨DISPLAY_WIDTH * (y + p.1) + x + p.2, hd⟩
                ((mem ⟨I + p.1, hm⟩ &&& 2 ^ (7 - p.2)) != 0))
              (DISPLAY_WIDTH * (y + q.1) + x + q.2) &&
              !((memAt mem (I + q.1) &&& 2 ^ (7 - q.2)) != 0)) =
            (dispAt d (DISPLAY_WIDTH * (y + q.1) + x + q.2) &&
              !((memAt mem (I + q.1) &&& 2 ^ (7 - q.2)) != 0)) := by
          intro q hq
          have hqd := (hb q (List.mem_cons_of_mem _ hq)).2
          simp only [dispAt]
          rw [dif_pos hqd, dif_pos hqd, Function.update_noteq (Fin.ne_of_val_ne
            (fun hh => hhead q hq hh.symm))]
        rw [anyCongr _ _ _ hfq]
        simp only [List.any_cons]
        have hdisp : dispAt d (DISPLAY_WIDTH * (y + p.1) + x + p.2) =
            d ⟨DISPLAY_WIDTH * (y + p.1) + x + p.2, hd⟩ := by
          simp only [dispAt]
          rw [dif_pos hd]
        have hmem : memAt mem (I + p.1) = mem ⟨I + p.1, hm⟩ := by
          simp only [memAt]
          rw [dif_pos hm]
        simp only [hdisp, hmem]
        by_cases h1 : (d ⟨DISPLAY_WIDTH * (y + p.1) + x + p.2, hd⟩ &&
            !((mem ⟨I + p.1, hm⟩ &&& 2 ^ (7 - p.2)) != 0)) = true <;>
          by_cases h2 : (ps.any (fun q =>
            dispAt d (DISPLAY_WIDTH * (y + q.1) + x + q.2) &&
            !((memAt mem (I + q.1) &&& 2 ^ (7 - q.2)) != 0))) = true <;>
          simp [h1, h2]

/-- Branch lemma for `0xDXYN` (sprite draw) when the drawn rectangle lies
fully inside the display and the sprite bytes inside memory: `cycle`
succeeds; every pixel of the rectangle is set to its sprite bit (an
overwrite — the Rust loop stores `value` directly); all other pixels keep
their values; `VF` is 1 exactly when some previously-set pixel received an
unset sprite bit, else 0; nothing else changes except `reg_pc` (+2) and
`reg_v 15`.  `x`, `y`, `n` name `reg_v[X]`, `reg_v[Y]` and the low nibble. -/
theorem cycle_draw (s : Chip8) (rnd op x y n : Nat)
    (hop : get_opcode s.memory s.reg_pc = .ok op)
    (hD : op / 4096 % 16 = 0xD)
    (hx : s.reg_v ⟨op / 256 % 16, by omega⟩ = x)
    (hy : s.reg_v ⟨op / 16 % 16, by omega⟩ = y)
    (hn : op % 16 = n)
    (hx8 : x + 8 ≤ 64) (hyn : y + n ≤ 32) (hIn : s.reg_i + n ≤ 4096) :
    ∃ s', s.cycle rnd = .ok s' ∧
      s'.reg_pc = s.reg_pc + 2 ∧ s'.reg_sp = s.reg_sp ∧ s'.reg_i = s.reg_i ∧
      s'.memory = s.memory ∧ s'.stack = s.stack ∧ s'.keyboard = s.keyboard ∧
      s'.reg_timer_delay = s.reg_timer_delay ∧
      s'.reg_timer_sound = s.reg_timer_sound ∧
      (∀ i : Fin 16, ¬ i = 15 → s'.reg_v i = s.reg_v i) ∧
      (∀ r c : Nat, r < n → c < 8 →
        dispAt s'.display (DISPLAY_WIDTH * (y + r) + x + c) =
        ((memAt s.memory (s.reg_i + r) &&& 2 ^ (7 - c)) != 0)) ∧
      (∀ j : Fin (64 * 32),
        (∀ r c : Nat, r < n → c < 8 →
          DISPLAY_WIDTH * (y + r) + x + c ≠ j.val) →
        s'.display j = s.display j) ∧
      (s'.reg_v 15 = 1 ∨ s'.reg_v 15 = 0) ∧
      (s'.reg_v 15 = 1 ↔ ∃ r c : Nat, r < n ∧ c < 8 ∧
        dispAt s.display (DISPLAY_WIDTH * (y + r) + x + c) = true ∧
        ((memAt s.memory (s.reg_i + r) &&& 2 ^ (7 - c)) != 0) = false) := by
  have hbounds : ∀ p ∈ pixelPairs n,
      s.reg_i + p.1 < 4096 ∧
      DISPLAY_WIDTH * (y + p.1) + x + p.2 < 64 * 32 := by
    intro p hp
    obtain ⟨h1, h2⟩ := (mem_pixelPairs n p).mp hp
    refine ⟨by omega, ?_⟩
    simp only [DISPLAY_WIDTH]
    omega
  obtain ⟨d', v', heq, hunt, hcov, hvf⟩ :=
    drawLoop_ok s.memory s.reg_i x y (pixelPairs n) s.display 0
      hbounds (pixelPairs_pairwise x y n)
  have hcyc : s.cycle rnd = .ok { s with
      display := d',
      reg_v := Function.update s.reg_v 15 v',
      reg_pc := s.reg_pc + 2 } := by
    rw [cycle_ok_fetch rnd s op hop]
    unfold execOp
    rw [if_neg (show ¬ op % 65536 = 0x00E0 by omega)]
    rw [if_neg (show ¬ op % 65536 = 0x00EE by omega)]
    rw [if_neg (show ¬ op / 4096 % 16 = 0x1 by omega)]
    rw [if_neg (show ¬ op / 4096 % 16 = 0x2 by omega)]
    rw [if_neg (show ¬ op / 4096 % 16 = 0x3 by omega)]
    rw [if_neg (show ¬ op / 4096 % 16 = 0x4 by omega)]
    rw [if_neg (show ¬ (op / 4096 % 16 = 0x5 ∧ op % 16 = 0x0) by omega)]
    rw [if_neg (show ¬ op / 4096 % 16 = 0x6 by omega)]
    rw [if_neg (show ¬ op / 4096 % 16 = 0x7 by omega)]
    rw [if_neg (show ¬ (op / 4096 % 16 = 0x8 ∧ op % 16 = 0x0) by omega)]
    rw [if_neg (show ¬ (op / 4096 % 16 = 0x8 ∧ op % 16 = 0x1) by omega)]
    rw [if_neg (show ¬ (op / 4096 % 16 = 0x8 ∧ op % 16 = 0x2) by omega)]
    rw [if_neg (show ¬ (op / 4096 % 16 = 0x8 ∧ op % 16 = 0x3) by omega)]
    rw [if_neg (show ¬ (op / 4096 % 16 = 0x8 ∧ op % 16 = 0x4) by omega)]
    rw [if_neg (show ¬ (op / 4096 % 16 = 0x8 ∧ op % 16 = 0x5) by omega)]
    rw [if_neg (show ¬ (op / 4096 % 16 = 0x8 ∧ op % 16 = 0x6) by omega)]
    rw [if_neg (show ¬ (op / 4096 % 16 = 0x8 ∧ op % 16 = 0x7) by omega)]
    rw [if_neg (show ¬ (op / 4096 % 16 = 0x8 ∧ op % 16 = 0xE) by omega)]
    rw [if_neg (show ¬ (op / 4096 % 16 = 0x9 ∧ op % 16 = 0x0) by omega)]
    rw [if_neg (show ¬ op / 4096 % 16 = 0xA by omega)]
    rw [if_neg (show ¬ op / 4096 % 16 = 0xB by omega)]
    rw [if_neg (show ¬ op / 4096 % 16 = 0xC by omega)]
    rw [if_pos hD, hx, hy, hn, heq]

  refine ⟨_, hcyc, rfl, rfl, rfl, rfl, rfl, rfl, rfl, rfl,
    fun i hi => Function.update_noteq hi _ _, ?_, ?_, ?_, ?_⟩
  · intro r c hr hc
    exact hcov (r, c) ((mem_pixelPairs _ _).mpr ⟨hr, hc⟩)
  · intro j hj
    exact hunt j (fun p hp =>
      hj p.1 p.2 ((mem_pixelPairs _ p).mp hp).1 ((mem_pixelPairs _ p).mp hp).2)
  · have h15 : Function.update s.reg_v 15 v' 15 = v' :=
      Function.update_same _ _ _
    show Function.update s.reg_v 15 v' 15 = 1 ∨
      Function.update s.reg_v 15 v' 15 = 0
    rw [h15, hvf]
    split
    · exact Or.inl rfl
    · exact Or.inr rfl
  · have h15 : Function.update s.reg_v 15 v' 15 = v' :=
      Function.update_same _ _ _
    show Function.update s.reg_v 15 v' 15 = 1 ↔ _
    rw [h15, hvf]
    constructor
    · intro h1
      split at h1
      · next hcnd =>
          obtain ⟨p, hp, hfp⟩ := List.any_eq_true.mp hcnd
          rw [Bool.and_eq_true] at hfp
          refine ⟨p.1, p.2, ((mem_pixelPairs _ p).mp hp).1,
            ((mem_pixelPairs _ p).mp hp).2, hfp.1, ?_⟩
          simpa using hfp.2
      · exact absurd h1 (by norm_num)
    · intro hex
      obtain ⟨r, c, hr, hc, hdisp1, hbit1⟩ := hex
      rw [if_pos (List.any_eq_true.mpr ⟨(r, c),
        (mem_pixelPairs _ _).mpr ⟨hr, hc⟩, by simp [hdisp1, hbit1]⟩)]

/-- C1 (amended): for every sprite-draw `DXYN` executed by `cycle`, with
`x = Vx`, `y = Vy` and the sprite fully on screen and in memory: for each
row `r < N` and column `c < 8` the destination pixel is at row-major index
`64 * (y + r) + (x + c)` — the coordinates are not reduced mod 64/32; the
code computes a raw index, so an off-screen sprite spills into adjacent
rows or faults instead of wrapping — and the new pixel value equals bit
`(7 - c)` of the byte at memory address `I + r`: the sprite bit overwrites
the pixel, it is not XORed with the previous value; pixels outside the
rectangle are unchanged; after the draw `VF = 1` if some previously-set
pixel received an unset sprite bit, else `VF = 0`; drawing the same sprite
twice in a row at the same position (the same instruction at `PC + 2`,
with `X, Y ≠ 15` so the flag write does not move the sprite) leaves the
display of the first draw unchanged and the second draw always sets
`VF = 0` — it does not restore the original pixels and does not report a
collision. -/
theorem C1_sprite_draw (s : Chip8) (rnd1 rnd2 op x y n : Nat)
    (hop : get_opcode s.memory s.reg_pc = .ok op)
    (hD : op / 4096 % 16 = 0xD)
    (hx : s.reg_v ⟨op / 256 % 16, by omega⟩ = x)
    (hy : s.reg_v ⟨op / 16 % 16, by omega⟩ = y)
    (hn : op % 16 = n)
    (hx8 : x + 8 ≤ 64) (hyn : y + n ≤ 32) (hIn : s.reg_i + n ≤ 4096)
    (hop2 : get_opcode s.memory (s.reg_pc + 2) = .ok op)
    (hX15 : ¬ op / 256 % 16 = 15) (hY15 : ¬ op / 16 % 16 = 15) :
    ∃ s', s.cycle rnd1 = .ok s' ∧
      (∀ r c : Nat, r < n → c < 8 →
        dispAt s'.display (DISPLAY_WIDTH * (y + r) + x + c) =
          ((memAt s.memory (s.reg_i + r) &&& 2 ^ (7 - c)) != 0)) ∧
      (∀ j : Fin (64 * 32),
        (∀ r c : Nat, r < n → c < 8 →
          DISPLAY_WIDTH * (y + r) + x + c ≠ j.val) →
        s'.display j = s.display j) ∧
      (s'.reg_v 15 = 1 ↔ ∃ r c : Nat, r < n ∧ c < 8 ∧
        dispAt s.display (DISPLAY_WIDTH * (y + r) + x + c) = true ∧
        ((memAt s.memory (s.reg_i + r) &&& 2 ^ (7 - c)) != 0) = false) ∧
      (s'.reg_v 15 = 1 ∨ s'.reg_v 15 = 0) ∧
      ∃ s2, s'.cycle rnd2 = .ok s2 ∧
        s2.display = s'.display ∧ s2.reg_v 15 = 0 := by
  obtain ⟨s', hcyc, hpc, hsp, hi, hmem, hstk, hkb, htd, hts, hregs,
    hcov, hunt, hvf01, hvfiff⟩ :=
    cycle_draw s rnd1 op x y n hop hD hx hy hn hx8 hyn hIn
  have hre : s'.reg_v ⟨op / 256 % 16, by omega⟩ = x :=
    (hregs _ (Fin.ne_of_val_ne (by simpa using hX15))).trans hx
  have hre2 : s'.reg_v ⟨op / 16 % 16, by omega⟩ = y :=
    (hregs _ (Fin.ne_of_val_ne (by simpa using hY15))).trans hy
  have hop' : get_opcode s'.memory s'.reg_pc = .ok op := by
    rw [hmem, hpc]; exact hop2
  have hIn' : s'.reg_i + n ≤ 4096 := by rw [hi]; exact hIn
  obtain ⟨s2, hcyc2, hpc2, hsp2, hi2, hmem2, hstk2, hkb2, htd2, hts2, hregs2,
    hcov2, hunt2, hvf012, hvfiff2⟩ :=
    cycle_draw s' rnd2 op x y n hop' hD hre hre2 hn hx8 hyn hIn'
  refine ⟨s', hcyc, hcov, hunt, hvfiff, hvf01, s2, hcyc2, ?_, ?_⟩
  · funext j
    by_cases hcj : ∀ r c : Nat, r < n → c < 8 →
        DISPLAY_WIDTH * (y + r) + x + c ≠ j.val
    · exact hunt2 j hcj
    · push_neg at hcj
      obtain ⟨r, c, hr, hc8, hj⟩ := hcj
      have hjlt := j.isLt
      have hdq : ∀ d : Fin (64 * 32) → Bool,
          dispAt d (DISPLAY_WIDTH * (y + r) + x + c) = d j := by
        intro d
        rw [hj]
        simp only [dispAt]
        rw [dif_pos hjlt]
      have e2 := hcov2 r c hr hc8
      have e1 := hcov r c hr hc8
      rw [hmem, hi] at e2
      rw [hdq s2.display] at e2
      rw [hdq s'.display] at e1
      rw [e2, e1]
  · rcases hvf012 with h1 | h0
    · exfalso
      obtain ⟨r, c, hr, hc8, hdisp2, hbit2⟩ := hvfiff2.mp h1
      rw [hmem, hi] at hbit2
      have e1 := hcov r c hr hc8
      rw [e1] at hdisp2
      rw [hdisp2] at hbit2
      exact Bool.noConfusion hbit2
    · exact h0

/-- A machine at `0xD455` (draw 5 rows at `(V4, V5) = (5, 10)` from
`I = 0`, the `0xF0...` zero glyph) whose display already has the single
pixel `(5, 10)` (row-major index `64 * 10 + 5`) set. -/
def C1state : Chip8 :=
  { Chip8.new with
    memory := storeBytes Chip8.new.memory 0x200 [0xD4, 0x55],
    reg_v := Function.update (Function.update (fun _ => 0) 4 5) 5 10,
    reg_i := 0,
    display := Function.update (fun _ => false) ⟨64 * 10 + 5, by omega⟩ true }

/-- Counterexample to C1 as stated: at `C1state` the target pixel
`(5, 10)` is set and the corresponding sprite bit (bit 7 of `0xF0`) is
set, so the claimed XOR semantics would clear the pixel (`true XOR true`)
and, that being a set-to-unset transition, would report `VF = 1`; the
code instead overwrites the pixel with the sprite bit — it stays `true` —
and reports `VF = 0`. -/
theorem C1_counterexample :
    dispAt C1state.display (64 * 10 + 5) = true ∧
    ((memAt C1state.memory (C1state.reg_i + 0) &&& 2 ^ (7 - 0)) != 0) = true ∧
    Except.map (fun s => dispAt s.display (64 * 10 + 5))
      (Chip8.cycle 0 C1state) = .ok true ∧
    regOf (Chip8.cycle 0 C1state) 15 = some 0 := by
  exact ⟨by decide, by decide, by decide, by decide⟩

/-- A machine with `0xD455` at both `0x200` and `0x202`, drawing the
glyph at `I = 5` to `(V4, V5) = (5, 10)` twice (the repository test's
sprite and position). -/
def C1wstate : Chip8 :=
  { Chip8.new with
    memory := storeBytes Chip8.new.memory 0x200 [0xD4, 0x55, 0xD4, 0x55],
    reg_v := Function.update (Function.update (fun _ => 0) 4 5) 5 10,
    reg_i := 5 }

/-- Witness for C1 at the concrete double draw of the same glyph at
`(5, 10)`. -/
theorem C1_sprite_draw_witness :
    (get_opcode C1wstate.memory C1wstate.reg_pc = .ok 0xD455 ∧
     get_opcode C1wstate.memory (C1wstate.reg_pc + 2) = .ok 0xD455 ∧
     C1wstate.reg_v ⟨0xD455 / 256 % 16, by omega⟩ = 5 ∧
     C1wstate.reg_v ⟨0xD455 / 16 % 16, by omega⟩ = 10 ∧
     C1wstate.reg_i + 0xD455 % 16 ≤ 4096) ∧
    (∃ s', C1wstate.cycle 0 = .ok s' ∧
      (∀ r c : Nat, r < 5 → c < 8 →
        dispAt s'.display (DISPLAY_WIDTH * (10 + r) + 5 + c) =
          ((memAt C1wstate.memory (C1wstate.reg_i + r) &&& 2 ^ (7 - c)) != 0)) ∧
      (∀ j : Fin (64 * 32),
        (∀ r c : Nat, r < 5 → c < 8 →
          DISPLAY_WIDTH * (10 + r) + 5 + c ≠ j.val) →
        s'.display j = C1wstate.display j) ∧
      (s'.reg_v 15 = 1 ↔ ∃ r c : Nat, r < 5 ∧ c < 8 ∧
        dispAt C1wstate.display (DISPLAY_WIDTH * (10 + r) + 5 + c) = true ∧
        ((memAt C1wstate.memory (C1wstate.reg_i + r) &&& 2 ^ (7 - c)) != 0)
          = false) ∧
      (s'.reg_v 15 = 1 ∨ s'.reg_v 15 = 0) ∧
      ∃ s2, s'.cycle 0 = .ok s2 ∧
        s2.display = s'.display ∧ s2.reg_v 15 = 0) := by
  refine ⟨⟨by decide, by decide, by decide, by decide, by decide⟩, ?_⟩
  exact C1_sprite_draw C1wstate 0 0 0xD455 5 10 5 (by decide) (by decide)
    (by decide) (by decide) (by decide) (by decide) (by decide) (by decide)
    (by decide) (by decide) (by decide)
